import Mathlib

/-!
Verification of the cellular-automaton particle simulator (`sandbox.rs`).

The simulation core is embedded shallowly:
* the 600×400 grid of `Option<Particle>` becomes a total function
  `Nat × Nat → Option Particle` (coordinates `(x, y)`);
* `i16` temperatures become `Int` with explicit two's-complement wrapping
  (`wrap16`) applied exactly where the Rust code performs `i16` arithmetic
  (release-mode semantics); checked variants model the debug-mode panics;
* `u8` quantities (the update-generation counter, colour channels) become
  `Nat` with the source's explicit overflow handling
  (`checked_add(1).unwrap_or(1)`, `saturating_add`, `clamp`);
* Rust's truncating integer division `/` on `i16` becomes `Int.tdiv`;
* the per-type movement functions (`move_powder`, `move_solid`,
  `move_liquid`, `move_electricity`) and reaction hooks (`update_sand`, …)
  live in `behavior.rs`, which is not part of the sources under
  verification; they are abstracted as parameters (`Behaviors`, `Hooks`)
  constrained only by the contract the specification gives them;
* the `simdnoise` turbulence field and the two `f32`/`f64` casts in
  `render` are abstracted as oracle parameters (`nj`, `ui`); every theorem
  about `render` is universally quantified over them.

All passes are defined generically in the grid dimensions `W`, `H`; the
simulator's entry points instantiate them at `SIMULATION_WIDTH = 600`,
`SIMULATION_HEIGHT = 400` exactly as the source does.
-/

namespace SandSim

/-- The 11 particle kinds, from `enum ParticleType` in `sandbox.rs`. -/
inductive ParticleType where
  | Sand
  | WetSand
  | Water
  | Acid
  | Iridium
  | Replicator
  | Plant
  | Cryotheum
  | Unstable
  | Electricity
  | Glass
deriving DecidableEq, Fintype

/-- `struct Particle`: type tag, `i16` temperature, two `i8` extra-data
fields and the `u8` generation stamp `last_update`. -/
structure Particle where
  ptype : ParticleType
  tempature : Int
  extra_data1 : Int
  extra_data2 : Int
  last_update : Nat
deriving DecidableEq

/-- The fixed-size 2D cell array `[[Option<Particle>; H]; W]`, embedded as a
total function on coordinates `(x, y)`. -/
abbrev Grid := Nat × Nat → Option Particle

def SIMULATION_WIDTH : Nat := 600

def SIMULATION_HEIGHT : Nat := 400

/-- `struct Sandbox`: the grid plus the private `u8` update counter.  The
`ThreadRng` field is omitted: randomness is only consumed by
`Particle::new` for Plant seeding and is passed there as a parameter. -/
structure Sandbox where
  cells : Grid
  update_counter : Nat

/-- `Particle::new`: type-dependent default temperature and extra data.
`rand` stands for the `thread_rng().gen_range(5, 21)` draw used only for
Plant's `extra_data1`. -/
def Particle.new (ptype : ParticleType) (rand : Int) : Particle :=
  { ptype := ptype
    tempature :=
      match ptype with
      | .Sand => 0
      | .WetSand => -5
      | .Water => -10
      | .Acid => 0
      | .Iridium => 0
      | .Replicator => 0
      | .Plant => 0
      | .Cryotheum => -60
      | .Unstable => 0
      | .Electricity => 0
      | .Glass => 0
    extra_data1 :=
      match ptype with
      | .Plant => rand
      | _ => 0
    extra_data2 := 0
    last_update := 0 }

/-- `Sandbox::new`: empty grid, update counter starts at 1. -/
def Sandbox.new : Sandbox :=
  { cells := fun _ => none, update_counter := 1 }

/-- One increment of the `u8` update counter:
`self.update_counter.checked_add(1).unwrap_or(1)` — overflow of a `u8`
`checked_add 1` happens exactly at 255, in which case the counter restarts
at 1. -/
def nextCounter (c : Nat) : Nat := if c = 255 then 1 else c + 1

/-- Modelled from the spec: the four movement strategies of the behavior
registry (`move_powder`, `move_solid`, `move_liquid`, `move_electricity`
from `behavior.rs`, which is outside the verified sources).  Each receives
the grid and the particle's coordinates and returns the mutated grid
together with the particle's resulting coordinates. -/
structure Behaviors where
  move_powder : Grid → Nat × Nat → Grid × (Nat × Nat)
  move_solid : Grid → Nat × Nat → Grid × (Nat × Nat)
  move_liquid : Grid → Nat × Nat → Grid × (Nat × Nat)
  move_electricity : Grid → Nat × Nat → Grid × (Nat × Nat)

/-- Modelled from the spec: the per-type reaction hooks of the behavior
registry (`update_sand`, …, `update_electricity` from `behavior.rs`).
A hook mutates the grid with side effects confined to it. -/
structure Hooks where
  update_sand : Grid → Nat × Nat → Grid
  update_water : Grid → Nat × Nat → Grid
  update_acid : Grid → Nat × Nat → Grid
  update_replicator : Grid → Nat × Nat → Grid
  update_plant : Grid → Nat × Nat → Grid
  update_cryotheum : Grid → Nat × Nat → Grid
  update_unstable : Grid → Nat × Nat → Grid
  update_electricity : Grid → Nat × Nat → Grid

/-- The movement dispatch `match particle.ptype { … }` of the movement
pass: stationary kinds (Iridium, Replicator, Unstable, and Plant with
`extra_data2 != 0`) leave the grid untouched and report the unchanged
position; Glass selects liquid or solid movement by `tempature >= 30`. -/
def dispatchMove (bh : Behaviors) (g : Grid) (pos : Nat × Nat)
    (particle : Particle) : Grid × (Nat × Nat) :=
  match particle.ptype with
  | .Sand => bh.move_powder g pos
  | .WetSand => bh.move_solid g pos
  | .Water => bh.move_liquid g pos
  | .Acid => bh.move_liquid g pos
  | .Iridium => (g, pos)
  | .Replicator => (g, pos)
  | .Plant => if particle.extra_data2 = 0 then bh.move_powder g pos else (g, pos)
  | .Cryotheum => bh.move_solid g pos
  | .Unstable => (g, pos)
  | .Electricity => bh.move_electricity g pos
  | .Glass => if 30 ≤ particle.tempature then bh.move_liquid g pos else bh.move_solid g pos

/-- The stamp write
`self.cells[np.0][np.1].as_mut().unwrap().last_update = counter`.
The `Option.map` silently skips an empty cell; `stampChecked` below models
the `unwrap` panic on that branch. -/
def stampAt (g : Grid) (pos : Nat × Nat) (c : Nat) : Grid :=
  fun q => if q = pos then (g q).map (fun p => { p with last_update := c }) else g q

/-- The body of the movement pass for one cell: skip an empty cell or a
particle already stamped with the current generation, otherwise dispatch
by type and stamp the particle at its resulting coordinates. -/
def moveStep (bh : Behaviors) (c : Nat) (g : Grid) (pos : Nat × Nat) : Grid :=
  match g pos with
  | none => g
  | some particle =>
    if particle.last_update = c then g
    else
      let pr := dispatchMove bh g pos particle
      stampAt pr.1 pr.2 c

/-- The raster sweep order of the update passes: `x` ascending in the
outer loop, `y` ascending in the inner loop. -/
def rasterXY (W H : Nat) : List (Nat × Nat) :=
  (List.range W).flatMap (fun x => (List.range H).map (fun y => (x, y)))

/-- The movement pass: one raster sweep applying `moveStep`. -/
def movePass (W H : Nat) (bh : Behaviors) (c : Nat) (g : Grid) : Grid :=
  (rasterXY W H).foldl (moveStep bh c) g

/-- `fn thermal_conductivity(ptype) -> i16`, the per-type conductivity
table (the source also asserts the result is `> 1`; that assertion is
claim C4). -/
def thermal_conductivity (ptype : ParticleType) : Int :=
  match ptype with
  | .Sand => 3
  | .WetSand => 4
  | .Water => 5
  | .Acid => 2
  | .Iridium => 8
  | .Replicator => 3
  | .Plant => 3
  | .Cryotheum => 2
  | .Unstable => 2
  | .Electricity => 2
  | .Glass => 3

/-- Two's-complement wrapping into the `i16` range, applied wherever the
Rust code performs `i16` addition or subtraction (release-mode wrapping
semantics). -/
def wrap16 (n : Int) : Int := (n + 32768) % 65536 - 32768

/-- `self.cells[pos].as_mut().unwrap().tempature -= d` with `i16`
wrapping; the `Option.map` silently skips an empty cell (during the
diffusion pass the source cell is always occupied, so the `unwrap`
cannot hit `None`). -/
def subTempAt (g : Grid) (pos : Nat × Nat) (d : Int) : Grid :=
  fun q =>
    if q = pos then (g q).map (fun p => { p with tempature := wrap16 (p.tempature - d) })
    else g q

/-- `self.cells[pos].as_mut().unwrap().tempature += d` with `i16`
wrapping, in the same style as `subTempAt`. -/
def addTempAt (g : Grid) (pos : Nat × Nat) (d : Int) : Grid :=
  fun q =>
    if q = pos then (g q).map (fun p => { p with tempature := wrap16 (p.tempature + d) })
    else g q

/-- One directed heat transfer of the diffusion pass: `particle1` is the
source cell's particle *as snapshotted before the pass* (`cells_copy`),
while the neighbour is looked up in the live grid.  If the neighbour is
occupied, `t = particle1.tempature / tc` (truncating division) is
subtracted from the live source cell and added to the live neighbour. -/
def diffTransfer (particle1 : Particle) (g : Grid) (src nbr : Nat × Nat) : Grid :=
  match g nbr with
  | none => g
  | some particle2 =>
    let tc := thermal_conductivity particle1.ptype + thermal_conductivity particle2.ptype
    let t := particle1.tempature.tdiv tc
    addTempAt (subTempAt g src t) nbr t

/-- One of the four guarded neighbour exchanges of the diffusion-pass
body (`if y != SIMULATION_HEIGHT - 1 { if let Some(particle2) = … }`):
when the boundary guard `c` holds, run `diffTransfer` towards `nbr`. -/
def diffDir (particle1 : Particle) (c : Prop) [Decidable c]
    (src nbr : Nat × Nat) (g : Grid) : Grid :=
  if c then diffTransfer particle1 g src nbr else g

/-- The diffusion-pass body for one cell: if the snapshot holds a particle
here, exchange heat with the down, right, up and left neighbours in that
order (innermost application first), each tested independently against
the live grid. -/
def diffStep (W H : Nat) (copy : Grid) (g : Grid) (pos : Nat × Nat) : Grid :=
  match copy pos with
  | none => g
  | some particle1 =>
    diffDir particle1 (pos.1 ≠ 0) (pos.1, pos.2) (pos.1 - 1, pos.2)
      (diffDir particle1 (pos.2 ≠ 0) (pos.1, pos.2) (pos.1, pos.2 - 1)
        (diffDir particle1 (pos.1 ≠ W - 1) (pos.1, pos.2) (pos.1 + 1, pos.2)
          (diffDir particle1 (pos.2 ≠ H - 1) (pos.1, pos.2) (pos.1, pos.2 + 1) g)))

/-- The thermal-diffusion pass: snapshot the grid (`cells_copy`), then one
raster sweep of `diffStep` reading source temperatures from the snapshot
and applying the transfers to the live grid. -/
def diffusionPass (W H : Nat) (g : Grid) : Grid :=
  (rasterXY W H).foldl (diffStep W H g) g

/-- The interaction dispatch `match particle.ptype { … }`: WetSand,
Iridium and Glass have no reaction hook and are left untouched. -/
def dispatchHook (hk : Hooks) (g : Grid) (pos : Nat × Nat) (particle : Particle) : Grid :=
  match particle.ptype with
  | .Sand => hk.update_sand g pos
  | .WetSand => g
  | .Water => hk.update_water g pos
  | .Acid => hk.update_acid g pos
  | .Iridium => g
  | .Replicator => hk.update_replicator g pos
  | .Plant => hk.update_plant g pos
  | .Cryotheum => hk.update_cryotheum g pos
  | .Unstable => hk.update_unstable g pos
  | .Electricity => hk.update_electricity g pos
  | .Glass => g

/-- The interaction-pass body for one cell: skip an empty cell or a
particle stamped with the current generation, otherwise run its reaction
hook.  Unlike the movement pass, no stamp is written afterwards. -/
def interStep (hk : Hooks) (c : Nat) (g : Grid) (pos : Nat × Nat) : Grid :=
  match g pos with
  | none => g
  | some particle =>
    if particle.last_update = c then g else dispatchHook hk g pos particle

/-- The interaction pass: one raster sweep of `interStep`. -/
def interPass (W H : Nat) (hk : Hooks) (c : Nat) (g : Grid) : Grid :=
  (rasterXY W H).foldl (interStep hk c) g

/-- `Sandbox::update`: increment the counter, movement pass, diffusion
pass, increment the counter again, interaction pass. -/
def Sandbox.update (bh : Behaviors) (hk : Hooks) (s : Sandbox) : Sandbox :=
  let c1 := nextCounter s.update_counter
  let g1 := movePass SIMULATION_WIDTH SIMULATION_HEIGHT bh c1 s.cells
  let g2 := diffusionPass SIMULATION_WIDTH SIMULATION_HEIGHT g1
  let c2 := nextCounter c1
  let g3 := interPass SIMULATION_WIDTH SIMULATION_HEIGHT hk c2 g2
  { cells := g3, update_counter := c2 }

/-- `fn clamp(value, min, max) -> i16` from the bottom of `sandbox.rs`
(the source also asserts `min <= max`). -/
def clamp (value min max : Int) : Int :=
  let x := value
  let x := if x < min then min else x
  if max < x then max else x

/-- `u8::saturating_add` on channel values (both arguments already lie in
`[0, 255]`). -/
def satAdd8 (a b : Nat) : Nat := Nat.min (a + b) 255

/-- `i16::abs` with release-mode semantics: two's-complement negation
wraps at `i16::MIN`, so `(-32768).abs() = -32768`.  The debug-mode panic
on that input is modelled by `i16_checked_abs`. -/
def i16_abs (t : Int) : Int :=
  if t = -32768 then -32768 else if t < 0 then -t else t

/-- `i16::checked_abs`: `none` exactly at `i16::MIN`, where the Rust
`abs()` overflows (a panic under overflow checking). -/
def i16_checked_abs (t : Int) : Option Int :=
  if t = -32768 then none else some (if t < 0 then -t else t)

/-- The per-type base colour palette of `render` (Plant selects between
two entries by `extra_data1 < 2`). -/
def baseColor (particle : Particle) : Nat × Nat × Nat :=
  match particle.ptype with
  | .Sand => (196, 192, 135)
  | .WetSand => (166, 162, 105)
  | .Water => (8, 130, 201)
  | .Acid => (128, 209, 0)
  | .Iridium => (205, 210, 211)
  | .Replicator => (68, 11, 67)
  | .Plant => if particle.extra_data1 < 2 then (75, 209, 216) else (86, 216, 143)
  | .Cryotheum => (12, 191, 201)
  | .Unstable => (181, 158, 128)
  | .Electricity => (247, 244, 49)
  | .Glass => (159, 198, 197)

/-- The per-type noise intensity of `render`.  For Unstable with positive
temperature the source computes `(10.0 * (tempature as f64 / 200.0)) as
i16`; that floating-point expression is abstracted as the oracle `ui`. -/
def noiseIntensity (ui : Int → Int) (particle : Particle) : Int :=
  match particle.ptype with
  | .Sand => 10
  | .WetSand => 10
  | .Water => 30
  | .Acid => 50
  | .Iridium => 0
  | .Replicator => 10
  | .Plant => if particle.extra_data1 < 2 then 10 else 5
  | .Cryotheum => 10
  | .Unstable => if 0 < particle.tempature then ui particle.tempature else 0
  | .Electricity => 200
  | .Glass => 50

/-- The noise jitter of `render`: when the intensity is nonzero, the `i16`
value `m = (noise[noise_index] * noise_intensity as f32) as i16` — whose
floating-point computation is abstracted as the oracle `nj`, applied to
the running noise index and the intensity — is added to each channel and
the result clamped to `[0, 255]`. -/
def applyNoise (nj : Nat → Int → Int) (idx : Nat) (ni : Int)
    (color : Nat × Nat × Nat) : Nat × Nat × Nat :=
  if ni ≠ 0 then
    let m := nj idx ni
    ((clamp ((color.1 : Int) + m) 0 255).toNat,
     (clamp ((color.2.1 : Int) + m) 0 255).toNat,
     (clamp ((color.2.2 : Int) + m) 0 255).toNat)
  else color

/-- The temperature tint of `render`, applied after the noise jitter: a
negative temperature adds `clamp(tempature.abs(), 0, 255)` to the blue
channel with `u8::saturating_add`, a non-negative one adds
`clamp(tempature, 0, 255)` to the red channel likewise. -/
def tempTint (color : Nat × Nat × Nat) (t : Int) : Nat × Nat × Nat :=
  if t < 0 then
    let tempature := clamp (i16_abs t) 0 255
    (color.1, color.2.1, satAdd8 color.2.2 tempature.toNat)
  else
    let tempature := clamp t 0 255
    (satAdd8 color.1 tempature.toNat, color.2.1, color.2.2)

/-- The colour of one rendered pixel: `(20, 20, 20)` for an empty cell,
otherwise the base colour jittered by noise and then temperature-tinted.
`idx` is the running noise index of the pixel. -/
def pixelColor (nj : Nat → Int → Int) (ui : Int → Int) (idx : Nat)
    (cell : Option Particle) : Nat × Nat × Nat :=
  match cell with
  | none => (20, 20, 20)
  | some particle =>
    tempTint (applyNoise nj idx (noiseIntensity ui particle) (baseColor particle))
      particle.tempature

/-- Debug-mode semantics of one rendered pixel: identical to `pixelColor`
except that the negative-temperature branch uses `i16::checked_abs`, so
the pixel computation panics (`none`) at `tempature = -32768`. -/
def pixelColorChecked (nj : Nat → Int → Int) (ui : Int → Int) (idx : Nat)
    (cell : Option Particle) : Option (Nat × Nat × Nat) :=
  match cell with
  | none => some (20, 20, 20)
  | some particle =>
    let color := applyNoise nj idx (noiseIntensity ui particle) (baseColor particle)
    if particle.tempature < 0 then
      match i16_checked_abs particle.tempature with
      | none => none
      | some a =>
        let tempature := clamp a 0 255
        some (color.1, color.2.1, satAdd8 color.2.2 tempature.toNat)
    else
      let tempature := clamp particle.tempature 0 255
      some (satAdd8 color.1 tempature.toNat, color.2.1, color.2.2)

/-- The four bytes written for one pixel: R, G, B and the constant alpha
255. -/
def pixelBytes (color : Nat × Nat × Nat) : List Nat :=
  [color.1, color.2.1, color.2.2, 255]

/-- The raster order of the render loop: `y` ascending in the outer loop,
`x` ascending in the inner loop. -/
def rasterYX (W H : Nat) : List (Nat × Nat) :=
  (List.range H).flatMap (fun y => (List.range W).map (fun x => (x, y)))

/-- The flat RGBA frame produced by `render`: pixels in raster order, four
bytes each; `frame_index` advances by 4 and `noise_index` by 1 per pixel,
so the pixel at `(x, y)` uses noise index `y·W + x`. -/
def renderBytes (W H : Nat) (nj : Nat → Int → Int) (ui : Int → Int)
    (g : Grid) : List Nat :=
  (rasterYX W H).flatMap (fun pos => pixelBytes (pixelColor nj ui (pos.2 * W + pos.1) (g pos)))

/-- `Sandbox::render` takes `&mut self` but only reads the simulation
state; the embedding returns the (unchanged) state next to the frame.
The generated noise buffer's length, `(2·W)·(H/2)`, is `noiseLen` below. -/
def Sandbox.render (s : Sandbox) (nj : Nat → Int → Int) (ui : Int → Int) :
    Sandbox × List Nat :=
  (s, renderBytes SIMULATION_WIDTH SIMULATION_HEIGHT nj ui s.cells)

/-- The number of samples in the noise field generated at the top of
`render`: `NoiseBuilder::turbulence_2d_offset(…, W * 2, …, H / 2)`. -/
def noiseLen : Nat := (SIMULATION_WIDTH * 2) * (SIMULATION_HEIGHT / 2)

/-- The stamp write of the movement pass with the `unwrap` made explicit:
`none` models the panic taken when the cell at the behavior-returned
coordinates is empty. -/
def stampChecked (g : Grid) (pos : Nat × Nat) (c : Nat) : Option Grid :=
  match g pos with
  | none => none
  | some p => some (fun q => if q = pos then some { p with last_update := c } else g q)

/-- The movement-pass body with the panicking stamp: identical to
`moveStep` except that a dispatch whose returned cell is empty yields
`none` (the `unwrap` panic) instead of silently skipping the stamp. -/
def moveStepChecked (bh : Behaviors) (c : Nat) (g : Grid) (pos : Nat × Nat) :
    Option Grid :=
  match g pos with
  | none => some g
  | some particle =>
    if particle.last_update = c then some g
    else
      let pr := dispatchMove bh g pos particle
      stampChecked pr.1 pr.2 c

/-- A movement registry in which no particle ever moves: every strategy
returns the grid unchanged and reports the dispatched position.  Used to
instantiate contract-parameterised theorems. -/
def idBehaviors : Behaviors :=
  { move_powder := fun g pos => (g, pos)
    move_solid := fun g pos => (g, pos)
    move_liquid := fun g pos => (g, pos)
    move_electricity := fun g pos => (g, pos) }

/-- A reaction registry in which every hook leaves the grid unchanged. -/
def idHooks : Hooks :=
  { update_sand := fun g _ => g
    update_water := fun g _ => g
    update_acid := fun g _ => g
    update_replicator := fun g _ => g
    update_plant := fun g _ => g
    update_cryotheum := fun g _ => g
    update_unstable := fun g _ => g
    update_electricity := fun g _ => g }

/-- The zero noise oracle: every sampled jitter value is 0. -/
def zeroNoise : Nat → Int → Int := fun _ _ => 0

/-- The zero Unstable-intensity oracle. -/
def zeroUnstable : Int → Int := fun _ => 0

/-! ### The update counter -/

lemma nextCounter_iterate_range (n : Nat) :
    1 ≤ nextCounter^[n] 1 ∧ nextCounter^[n] 1 ≤ 255 := by
  induction n with
  | zero =>
    rw [Function.iterate_zero_apply]
    omega
  | succ n ih =>
    rw [Function.iterate_succ_apply']
    set m := nextCounter^[n] 1 with hm
    unfold nextCounter
    split <;> omega

/-- Claim C3: `update()` increments the 8-bit generation counter exactly
twice per call — the resulting counter is `nextCounter (nextCounter c)` of
the incoming one, the first increment feeding the movement pass and the
second the interaction pass; the increment wraps from 255 back to 1 and
stays inside `[1, 255]`, so starting from the initial value 1 (set by
`Sandbox::new`) the counter never takes the value 0, the "never updated"
stamp of a freshly created particle. -/
theorem c3_update_counter (bh : Behaviors) (hk : Hooks) (s : Sandbox)
    (c n : Nat) (h1 : 1 ≤ c) (h2 : c ≤ 255) :
    (Sandbox.update bh hk s).update_counter = nextCounter (nextCounter s.update_counter)
    ∧ nextCounter 255 = 1
    ∧ (1 ≤ nextCounter c ∧ nextCounter c ≤ 255 ∧ nextCounter c ≠ 0)
    ∧ Sandbox.new.update_counter = 1
    ∧ (Particle.new ParticleType.Sand 0).last_update = 0
    ∧ nextCounter^[n] 1 ≠ 0 := by
  refine ⟨rfl, rfl, ?_, rfl, rfl, ?_⟩
  · unfold nextCounter
    split <;> omega
  · have h := nextCounter_iterate_range n
    omega

/-- Witness for C3 at a concrete counter value and iteration count. -/
theorem c3_update_counter_witness :
    (1 ≤ 7 ∧ 7 ≤ 255) ∧
    ((Sandbox.update idBehaviors idHooks Sandbox.new).update_counter
        = nextCounter (nextCounter Sandbox.new.update_counter)
      ∧ nextCounter 255 = 1
      ∧ (1 ≤ nextCounter 7 ∧ nextCounter 7 ≤ 255 ∧ nextCounter 7 ≠ 0)
      ∧ Sandbox.new.update_counter = 1
      ∧ (Particle.new ParticleType.Sand 0).last_update = 0
      ∧ nextCounter^[3] 1 ≠ 0) :=
  ⟨⟨by decide, by decide⟩,
    c3_update_counter idBehaviors idHooks Sandbox.new 7 3 (by decide) (by decide)⟩

/-! ### The conductivity table -/

/-- Claim C4: the thermal-conductivity table maps the 11 particle types to
exactly Sand=3, WetSand=4, Water=5, Acid=2, Iridium=8, Replicator=3,
Plant=3, Cryotheum=2, Unstable=2, Electricity=2, Glass=3; every type has
conductivity greater than 1, so every diffusion divisor
`conductivity A + conductivity B` is greater than 1. -/
theorem c4_thermal_conductivity_table :
    (thermal_conductivity ParticleType.Sand = 3
      ∧ thermal_conductivity ParticleType.WetSand = 4
      ∧ thermal_conductivity ParticleType.Water = 5
      ∧ thermal_conductivity ParticleType.Acid = 2
      ∧ thermal_conductivity ParticleType.Iridium = 8
      ∧ thermal_conductivity ParticleType.Replicator = 3
      ∧ thermal_conductivity ParticleType.Plant = 3
      ∧ thermal_conductivity ParticleType.Cryotheum = 2
      ∧ thermal_conductivity ParticleType.Unstable = 2
      ∧ thermal_conductivity ParticleType.Electricity = 2
      ∧ thermal_conductivity ParticleType.Glass = 3)
    ∧ (∀ t : ParticleType, 1 < thermal_conductivity t)
    ∧ (∀ a b : ParticleType, 1 < thermal_conductivity a + thermal_conductivity b) := by
  decide

/-! ### Render is read-only (C7) -/

/-- Claim C7: `render()` never mutates simulation state — the sandbox
returned alongside the frame is the one passed in, cell for cell and
counter included, for every grid and every pair of noise oracles. -/
theorem c7_render_pure (s : Sandbox) (nj : Nat → Int → Int) (ui : Int → Int) :
    (Sandbox.render s nj ui).1 = s
    ∧ (∀ pos, ((Sandbox.render s nj ui).1).cells pos = s.cells pos)
    ∧ ((Sandbox.render s nj ui).1).update_counter = s.update_counter :=
  ⟨rfl, fun _ => rfl, rfl⟩

/-! ### The temperature tint (C5, C10) -/

/-- Counterexample to claim C5 as stated: for a particle at temperature
`i16::MIN = -32768` the blue channel does *not* receive
`clamp(|t|, 0, 255) = 255`; the wrapping `i16` `abs` returns `-32768`,
the clamp floors it to 0, and the rendered blue channel of a Water
particle stays 201 instead of saturating to 255. -/
theorem c5_min_temp_counterexample :
    (pixelColor zeroNoise zeroUnstable 0
        (some { Particle.new ParticleType.Water 0 with tempature := -32768 })).2.2 = 201
    ∧ satAdd8 201 ((clamp 32768 0 255).toNat) = 255
    ∧ (201 : Nat) ≠ 255 := by
  decide

/-- Claim C5 (amended): after base-colour and noise-jitter computation,
every particle with `-32768 < temperature < 0` has
`clamp(|temperature|, 0, 255)` added to its blue channel with saturating
addition, and every particle with `temperature ≥ 0` has
`clamp(temperature, 0, 255)` added to its red channel with saturating
addition; at temperature exactly `-32768` the wrapping `i16` `abs` makes
the code add 0 instead (see the counterexample).  In particular a cell at
temperature +1000 renders its red channel saturated at 255, not wrapped
(196 + 255 would wrap to 195). -/
theorem c5_temperature_tint (nj : Nat → Int → Int) (ui : Int → Int) (idx : Nat)
    (p q : Particle) (hp1 : p.tempature < 0) (hp2 : -32768 < p.tempature)
    (hq : 0 ≤ q.tempature) :
    (pixelColor nj ui idx (some p) =
      ((applyNoise nj idx (noiseIntensity ui p) (baseColor p)).1,
       (applyNoise nj idx (noiseIntensity ui p) (baseColor p)).2.1,
       satAdd8 (applyNoise nj idx (noiseIntensity ui p) (baseColor p)).2.2
         ((clamp (-p.tempature) 0 255).toNat)))
    ∧ (pixelColor nj ui idx (some q) =
      (satAdd8 (applyNoise nj idx (noiseIntensity ui q) (baseColor q)).1
         ((clamp q.tempature 0 255).toNat),
       (applyNoise nj idx (noiseIntensity ui q) (baseColor q)).2.1,
       (applyNoise nj idx (noiseIntensity ui q) (baseColor q)).2.2))
    ∧ ((pixelColor zeroNoise zeroUnstable 0
          (some { Particle.new ParticleType.Sand 0 with tempature := 1000 })).1 = 255
      ∧ satAdd8 196 255 = 255 ∧ (196 + 255) % 256 ≠ 255) := by
  refine ⟨?_, ?_, by decide⟩
  · have hne : p.tempature ≠ -32768 := by omega
    simp only [pixelColor, tempTint, if_pos hp1, i16_abs, if_neg hne]
  · have hnlt : ¬ q.tempature < 0 := by omega
    simp only [pixelColor, tempTint, if_neg hnlt]

/-- Witness for C5 (amended) at a Water particle at -10 and a Sand
particle at 0. -/
theorem c5_temperature_tint_witness :
    ((Particle.new ParticleType.Water 0).tempature < 0
      ∧ -32768 < (Particle.new ParticleType.Water 0).tempature
      ∧ 0 ≤ (Particle.new ParticleType.Sand 0).tempature) ∧
    ((pixelColor zeroNoise zeroUnstable 5 (some (Particle.new ParticleType.Water 0)) =
      ((applyNoise zeroNoise 5
          (noiseIntensity zeroUnstable (Particle.new ParticleType.Water 0))
          (baseColor (Particle.new ParticleType.Water 0))).1,
       (applyNoise zeroNoise 5
          (noiseIntensity zeroUnstable (Particle.new ParticleType.Water 0))
          (baseColor (Particle.new ParticleType.Water 0))).2.1,
       satAdd8 (applyNoise zeroNoise 5
          (noiseIntensity zeroUnstable (Particle.new ParticleType.Water 0))
          (baseColor (Particle.new ParticleType.Water 0))).2.2
         ((clamp (-(Particle.new ParticleType.Water 0).tempature) 0 255).toNat)))
    ∧ (pixelColor zeroNoise zeroUnstable 5 (some (Particle.new ParticleType.Sand 0)) =
      (satAdd8 (applyNoise zeroNoise 5
          (noiseIntensity zeroUnstable (Particle.new ParticleType.Sand 0))
          (baseColor (Particle.new ParticleType.Sand 0))).1
         ((clamp (Particle.new ParticleType.Sand 0).tempature 0 255).toNat),
       (applyNoise zeroNoise 5
          (noiseIntensity zeroUnstable (Particle.new ParticleType.Sand 0))
          (baseColor (Particle.new ParticleType.Sand 0))).2.1,
       (applyNoise zeroNoise 5
          (noiseIntensity zeroUnstable (Particle.new ParticleType.Sand 0))
          (baseColor (Particle.new ParticleType.Sand 0))).2.2))
    ∧ ((pixelColor zeroNoise zeroUnstable 0
          (some { Particle.new ParticleType.Sand 0 with tempature := 1000 })).1 = 255
      ∧ satAdd8 196 255 = 255 ∧ (196 + 255) % 256 ≠ 255)) :=
  ⟨⟨by decide, by decide, by decide⟩,
    c5_temperature_tint zeroNoise zeroUnstable 5
      (Particle.new ParticleType.Water 0) (Particle.new ParticleType.Sand 0)
      (by decide) (by decide) (by decide)⟩

/-- Claim C10: the negative-temperature tint takes `i16::abs` of the
particle temperature, which is well-defined only above `i16::MIN`:
`checked_abs` is `none` at -32768, the debug-semantics pixel computation
panics there, and for every temperature strictly above -32768 it agrees
with the release-semantics pixel computation. -/
theorem c10_abs_min_panic (nj : Nat → Int → Int) (ui : Int → Int) (idx : Nat)
    (p : Particle) (h : -32768 < p.tempature) :
    i16_checked_abs (-32768) = none
    ∧ pixelColorChecked nj ui idx
        (some { Particle.new ParticleType.Water 0 with tempature := -32768 }) = none
    ∧ pixelColorChecked nj ui idx (some p) = some (pixelColor nj ui idx (some p)) := by
  refine ⟨rfl, rfl, ?_⟩
  have hne : p.tempature ≠ -32768 := by omega
  by_cases hlt : p.tempature < 0
  · simp [pixelColorChecked, pixelColor, tempTint, i16_checked_abs, i16_abs, hne, hlt]
  · simp [pixelColorChecked, pixelColor, tempTint, i16_checked_abs, i16_abs, hne, hlt]

/-! ### Frame-buffer shape (C6) and noise indexing (C8) -/

lemma flatMap_length_const {α β : Type} (L : List α) (f : α → List β) (c : Nat)
    (h : ∀ a ∈ L, (f a).length = c) : (L.flatMap f).length = L.length * c := by
  induction L with
  | nil => simp
  | cons a t ih =>
    have ha := h a (List.mem_cons_self a t)
    have ht := ih (fun b hb => h b (List.mem_cons_of_mem a hb))
    simp only [List.flatMap_cons, List.length_append, ha, ht, List.length_cons]
    ring

lemma flatMap_getElem_const {α β : Type} (L : List α) (f : α → List β) (c : Nat)
    (h : ∀ a ∈ L, (f a).length = c) (i j : Nat) (hj : j < c) (hi : i < L.length) :
    (L.flatMap f)[c * i + j]? = (f (L.get ⟨i, hi⟩))[j]? := by
  induction L generalizing i with
  | nil => simp at hi
  | cons a t ih =>
    have ha : (f a).length = c := h a (List.mem_cons_self a t)
    cases i with
    | zero =>
      simp only [Nat.mul_zero, Nat.zero_add, List.flatMap_cons]
      rw [List.getElem?_append_left (by omega)]
      rfl
    | succ i =>
      have hit : i < t.length := by simpa using hi
      have hexp : c * (i + 1) = c * i + c := by ring
      simp only [List.flatMap_cons]
      rw [List.getElem?_append_right (by rw [ha, hexp]; omega)]
      have harith : c * (i + 1) + j - (f a).length = c * i + j := by rw [ha, hexp]; omega
      rw [harith]
      exact ih (fun b hb => h b (List.mem_cons_of_mem a hb)) i hit

lemma flatMap_congr {α β : Type} (L : List α) (f g : α → List β)
    (h : ∀ a ∈ L, f a = g a) : L.flatMap f = L.flatMap g := by
  induction L with
  | nil => rfl
  | cons a t ih =>
    simp only [List.flatMap_cons, h a (List.mem_cons_self a t),
      ih (fun b hb => h b (List.mem_cons_of_mem a hb))]

lemma rasterYX_length (W H : Nat) : (rasterYX W H).length = H * W := by
  unfold rasterYX
  rw [flatMap_length_const _ _ W (fun a _ => by simp), List.length_range]

lemma rasterYX_getElem (W H x y : Nat) (hx : x < W) (hy : y < H)
    (hlen : y * W + x < (rasterYX W H).length) :
    (rasterYX W H).get ⟨y * W + x, hlen⟩ = (x, y) := by
  have key : (rasterYX W H)[y * W + x]? = some (x, y) := by
    unfold rasterYX
    have hylen : y < (List.range H).length := by simpa using hy
    have := flatMap_getElem_const (List.range H)
      (fun b => (List.range W).map (fun a => (a, b))) W
      (fun a _ => by simp) y x hx hylen
    rw [Nat.mul_comm W y] at this
    rw [this]
    have hget : (List.range H).get ⟨y, hylen⟩ = y := List.get_range y hylen
    rw [hget, List.getElem?_map, List.getElem?_range hx]
    rfl
  have h2 : (rasterYX W H)[y * W + x]? = some ((rasterYX W H).get ⟨y * W + x, hlen⟩) := by
    simp [List.getElem?_eq_getElem hlen]
  rw [h2] at key
  exact Option.some_injective _ key

lemma rasterYX_mem (W H : Nat) (x y : Nat) :
    (x, y) ∈ rasterYX W H ↔ x < W ∧ y < H := by
  unfold rasterYX
  simp only [List.mem_flatMap, List.mem_map, List.mem_range, Prod.mk.injEq]
  constructor
  · rintro ⟨b, hb, a, ha, rfl, rfl⟩
    exact ⟨ha, hb⟩
  · rintro ⟨h1, h2⟩
    exact ⟨y, h2, x, h1, rfl, rfl⟩

lemma renderBytes_length (W H : Nat) (nj : Nat → Int → Int) (ui : Int → Int) (g : Grid) :
    (renderBytes W H nj ui g).length = H * W * 4 := by
  unfold renderBytes
  have h4 : ∀ pos ∈ rasterYX W H,
      (pixelBytes (pixelColor nj ui (pos.2 * W + pos.1) (g pos))).length = 4 :=
    fun _ _ => rfl
  rw [flatMap_length_const _ _ 4 h4, rasterYX_length]

lemma renderBytes_getElem (W H : Nat) (nj : Nat → Int → Int) (ui : Int → Int)
    (g : Grid) (x y j : Nat) (hx : x < W) (hy : y < H) (hj : j < 4) :
    (renderBytes W H nj ui g)[4 * (y * W + x) + j]?
      = (pixelBytes (pixelColor nj ui (y * W + x) (g (x, y))))[j]? := by
  unfold renderBytes
  have h4 : ∀ pos ∈ rasterYX W H,
      (pixelBytes (pixelColor nj ui (pos.2 * W + pos.1) (g pos))).length = 4 :=
    fun _ _ => rfl
  have hi : y * W + x < (rasterYX W H).length := by
    rw [rasterYX_length]
    calc y * W + x < y * W + W := by omega
    _ = (y + 1) * W := by ring
    _ ≤ H * W := Nat.mul_le_mul_right W (by omega)
  rw [flatMap_getElem_const _ _ 4 h4 _ j hj hi, rasterYX_getElem W H x y hx hy hi]

lemma renderBytes_alpha (W H : Nat) (nj : Nat → Int → Int) (ui : Int → Int)
    (g : Grid) (k : Nat) (hk : k < H * W) :
    (renderBytes W H nj ui g)[4 * k + 3]? = some 255 := by
  unfold renderBytes
  have h4 : ∀ pos ∈ rasterYX W H,
      (pixelBytes (pixelColor nj ui (pos.2 * W + pos.1) (g pos))).length = 4 :=
    fun _ _ => rfl
  have hi : k < (rasterYX W H).length := by rw [rasterYX_length]; exact hk
  rw [flatMap_getElem_const _ _ 4 h4 _ 3 (by omega) hi]
  rfl

/-- Claim C6: for every grid state and both noise oracles, `render()`
writes exactly `4·600·400` bytes, row-major, one RGBA pixel per cell:
every 4th byte (alpha) is 255, and an empty cell's pixel at `(x, y)`
(bytes `4·(y·600+x)` onward) carries the default colour `(20, 20, 20)`. -/
theorem c6_render_buffer_shape (s : Sandbox) (nj : Nat → Int → Int) (ui : Int → Int)
    (k x y : Nat) (hk : k < 600 * 400) (hx : x < 600) (hy : y < 400)
    (he : s.cells (x, y) = none) :
    ((Sandbox.render s nj ui).2).length = 4 * 600 * 400
    ∧ ((Sandbox.render s nj ui).2)[4 * k + 3]? = some 255
    ∧ ((Sandbox.render s nj ui).2)[4 * (y * 600 + x)]? = some 20
    ∧ ((Sandbox.render s nj ui).2)[4 * (y * 600 + x) + 1]? = some 20
    ∧ ((Sandbox.render s nj ui).2)[4 * (y * 600 + x) + 2]? = some 20 := by
  have hrender : (Sandbox.render s nj ui).2 = renderBytes 600 400 nj ui s.cells := by
    simp only [Sandbox.render, SIMULATION_WIDTH, SIMULATION_HEIGHT]
  refine ⟨?_, ?_, ?_, ?_, ?_⟩
  · rw [hrender, renderBytes_length]
  · rw [hrender]; exact renderBytes_alpha 600 400 nj ui s.cells k (by omega)
  · have h0 : 4 * (y * 600 + x) = 4 * (y * 600 + x) + 0 := by omega
    rw [hrender, h0, renderBytes_getElem 600 400 nj ui s.cells x y 0 hx hy (by omega), he]
    rfl
  · rw [hrender, renderBytes_getElem 600 400 nj ui s.cells x y 1 hx hy (by omega), he]
    rfl
  · rw [hrender, renderBytes_getElem 600 400 nj ui s.cells x y 2 hx hy (by omega), he]
    rfl

/-- Witness for C6 on the empty sandbox at pixel (0, 0). -/
theorem c6_render_buffer_shape_witness :
    (0 < 600 * 400 ∧ 0 < 600 ∧ 0 < 400 ∧ Sandbox.new.cells (0, 0) = none) ∧
    (((Sandbox.render Sandbox.new zeroNoise zeroUnstable).2).length = 4 * 600 * 400
    ∧ ((Sandbox.render Sandbox.new zeroNoise zeroUnstable).2)[4 * 0 + 3]? = some 255
    ∧ ((Sandbox.render Sandbox.new zeroNoise zeroUnstable).2)[4 * (0 * 600 + 0)]? = some 20
    ∧ ((Sandbox.render Sandbox.new zeroNoise zeroUnstable).2)[4 * (0 * 600 + 0) + 1]? = some 20
    ∧ ((Sandbox.render Sandbox.new zeroNoise zeroUnstable).2)[4 * (0 * 600 + 0) + 2]? = some 20) :=
  ⟨⟨by decide, by decide, by decide, rfl⟩,
    c6_render_buffer_shape Sandbox.new zeroNoise zeroUnstable 0 0 0
      (by decide) (by decide) (by decide) rfl⟩

lemma pixelColor_congr (nj nj2 : Nat → Int → Int) (ui : Int → Int) (idx : Nat)
    (cell : Option Particle) (h : ∀ m, nj idx m = nj2 idx m) :
    pixelColor nj ui idx cell = pixelColor nj2 ui idx cell := by
  cases cell with
  | none => rfl
  | some p => simp only [pixelColor, applyNoise, h]

/-- Claim C8: the noise buffer generated with dimensions `(2·W)×(H/2)`
holds exactly `(2·600)·(400/2) = 240000 = 600·400` samples, one per
rendered pixel; the running noise index `y·600 + x` of every pixel stays
below that length, and consequently the frame depends only on noise
samples at indices below `noiseLen` — two noise oracles agreeing there
render identical frames. -/
theorem c8_noise_index_in_bounds (s : Sandbox) (nj nj2 : Nat → Int → Int)
    (ui : Int → Int) (x y : Nat) (hx : x < 600) (hy : y < 400)
    (hagree : ∀ i, i < noiseLen → ∀ m, nj i m = nj2 i m) :
    noiseLen = 600 * 400
    ∧ y * 600 + x < noiseLen
    ∧ (Sandbox.render s nj ui).2 = (Sandbox.render s nj2 ui).2 := by
  have hlen : noiseLen = 600 * 400 := by decide
  refine ⟨hlen, by rw [hlen]; omega, ?_⟩
  have hr : ∀ njx : Nat → Int → Int,
      (Sandbox.render s njx ui).2 = renderBytes 600 400 njx ui s.cells := fun njx => by
    simp only [Sandbox.render, SIMULATION_WIDTH, SIMULATION_HEIGHT]
  rw [hr nj, hr nj2]
  unfold renderBytes
  apply flatMap_congr
  rintro ⟨a, b⟩ hmem
  rw [rasterYX_mem] at hmem
  have hidx : b * 600 + a < noiseLen := by rw [hlen]; omega
  rw [pixelColor_congr nj nj2 ui (b * 600 + a) (s.cells (a, b)) (hagree _ hidx)]

/-- Witness for C8 with the zero noise oracle on both sides. -/
theorem c8_noise_index_in_bounds_witness :
    (0 < 600 ∧ 0 < 400 ∧ (∀ i, i < noiseLen → ∀ m, zeroNoise i m = zeroNoise i m)) ∧
    (noiseLen = 600 * 400
    ∧ 0 * 600 + 0 < noiseLen
    ∧ (Sandbox.render Sandbox.new zeroNoise zeroUnstable).2
        = (Sandbox.render Sandbox.new zeroNoise zeroUnstable).2) :=
  ⟨⟨by decide, by decide, fun _ _ _ => rfl⟩,
    c8_noise_index_in_bounds Sandbox.new zeroNoise zeroNoise zeroUnstable 0 0
      (by decide) (by decide) (fun _ _ _ => rfl)⟩

/-! ### The movement and interaction passes (C2, C9) -/

/-- Modelled from the spec: the call contract of a movement strategy —
the returned coordinates name a cell that actually holds a particle, and
a move only relocates the dispatched (unstamped) particle, so every cell
holding a particle already stamped with the pass generation `c` is left
exactly as it was (behaviors never touch `last_update`, which is owned by
the pipeline). -/
def MoveFnOk (mv : Grid → Nat × Nat → Grid × (Nat × Nat)) (c : Nat) : Prop :=
  ∀ g pos, (g pos).isSome = true →
    (((mv g pos).1 ((mv g pos).2)).isSome = true
      ∧ ∀ q p, g q = some p → p.last_update = c → (mv g pos).1 q = some p)

/-- Modelled from the spec: all four movement strategies of a registry
satisfy the movement contract for generation `c`. -/
def BehaviorsOk (bh : Behaviors) (c : Nat) : Prop :=
  MoveFnOk bh.move_powder c ∧ MoveFnOk bh.move_solid c
    ∧ MoveFnOk bh.move_liquid c ∧ MoveFnOk bh.move_electricity c

lemma idBehaviors_ok (c : Nat) : BehaviorsOk idBehaviors c := by
  refine ⟨?_, ?_, ?_, ?_⟩ <;> exact fun g pos h => ⟨h, fun q p hq _ => hq⟩

lemma dispatchMove_ok (bh : Behaviors) (c : Nat) (hbh : BehaviorsOk bh c)
    (g : Grid) (pos : Nat × Nat) (particle : Particle) (hg : g pos = some particle) :
    ((dispatchMove bh g pos particle).1 ((dispatchMove bh g pos particle).2)).isSome = true
    ∧ ∀ q p, g q = some p → p.last_update = c →
        (dispatchMove bh g pos particle).1 q = some p := by
  obtain ⟨h1, h2, h3, h4⟩ := hbh
  have hsome : (g pos).isSome = true := by rw [hg]; rfl
  have hid : ((g, pos).1 ((g, pos).2)).isSome = true
      ∧ ∀ q p, g q = some p → p.last_update = c → (g, pos).1 q = some p :=
    ⟨hsome, fun _ _ hq _ => hq⟩
  unfold dispatchMove
  split
  · exact h1 g pos hsome
  · exact h2 g pos hsome
  · exact h3 g pos hsome
  · exact h3 g pos hsome
  · exact hid
  · exact hid
  · split
    · exact h1 g pos hsome
    · exact hid
  · exact h2 g pos hsome
  · exact hid
  · exact h4 g pos hsome
  · split
    · exact h3 g pos hsome
    · exact h2 g pos hsome

lemma Particle_stamp_self (p : Particle) (c : Nat) (h : p.last_update = c) :
    { p with last_update := c } = p := by
  cases p
  cases h
  rfl

lemma moveStep_some (bh : Behaviors) (c : Nat) (g : Grid) (pos : Nat × Nat)
    (particle : Particle) (hg : g pos = some particle) :
    moveStep bh c g pos = if particle.last_update = c then g
      else stampAt (dispatchMove bh g pos particle).1
        (dispatchMove bh g pos particle).2 c := by
  unfold moveStep
  rw [hg]

lemma interStep_some (hk : Hooks) (c : Nat) (g : Grid) (pos : Nat × Nat)
    (particle : Particle) (hg : g pos = some particle) :
    interStep hk c g pos = if particle.last_update = c then g
      else dispatchHook hk g pos particle := by
  unfold interStep
  rw [hg]

lemma moveStepChecked_some (bh : Behaviors) (c : Nat) (g : Grid) (pos : Nat × Nat)
    (particle : Particle) (hg : g pos = some particle) :
    moveStepChecked bh c g pos = if particle.last_update = c then some g
      else stampChecked (dispatchMove bh g pos particle).1
        (dispatchMove bh g pos particle).2 c := by
  unfold moveStepChecked
  rw [hg]

lemma moveStep_skip (bh : Behaviors) (c : Nat) (g : Grid) (pos : Nat × Nat)
    (particle : Particle) (hg : g pos = some particle)
    (hc : particle.last_update = c) : moveStep bh c g pos = g := by
  rw [moveStep_some bh c g pos particle hg, if_pos hc]

lemma moveStep_stamps (bh : Behaviors) (c : Nat) (hbh : BehaviorsOk bh c)
    (g : Grid) (pos : Nat × Nat) (particle : Particle)
    (hg : g pos = some particle) (hc : particle.last_update ≠ c) :
    ∃ p2, (moveStep bh c g pos) ((dispatchMove bh g pos particle).2) = some p2
      ∧ p2.last_update = c := by
  have hd := (dispatchMove_ok bh c hbh g pos particle hg).1
  rw [moveStep_some bh c g pos particle hg, if_neg hc]
  unfold stampAt
  rw [if_pos rfl]
  obtain ⟨p2, hp2⟩ := Option.isSome_iff_exists.mp hd
  rw [hp2]
  exact ⟨_, rfl, rfl⟩

lemma moveStep_preserves (bh : Behaviors) (c : Nat) (hbh : BehaviorsOk bh c)
    (g : Grid) (pos q : Nat × Nat) (p : Particle)
    (hq : g q = some p) (hc : p.last_update = c) :
    moveStep bh c g pos q = some p := by
  cases hg : g pos with
  | none =>
    have : moveStep bh c g pos = g := by unfold moveStep; rw [hg]
    rw [this]
    exact hq
  | some particle =>
    rw [moveStep_some bh c g pos particle hg]
    by_cases hpc : particle.last_update = c
    · rw [if_pos hpc]; exact hq
    · rw [if_neg hpc]
      have hd := (dispatchMove_ok bh c hbh g pos particle hg).2 q p hq hc
      unfold stampAt
      by_cases hqq : q = (dispatchMove bh g pos particle).2
      · subst hqq
        rw [if_pos rfl, hd]
        exact congrArg some (Particle_stamp_self p c hc)
      · rw [if_neg hqq]
        exact hd

lemma foldl_moveStep_preserves (bh : Behaviors) (c : Nat) (hbh : BehaviorsOk bh c)
    (L : List (Nat × Nat)) : ∀ (g : Grid) (q : Nat × Nat) (p : Particle),
    g q = some p → p.last_update = c → (L.foldl (moveStep bh c) g) q = some p := by
  induction L with
  | nil => exact fun g q p hq _ => hq
  | cons a t ih =>
    intro g q p hq hc
    exact ih _ q p (moveStep_preserves bh c hbh g a q p hq hc) hc

lemma interStep_skip (hk : Hooks) (c : Nat) (g : Grid) (pos : Nat × Nat)
    (particle : Particle) (hg : g pos = some particle)
    (hc : particle.last_update = c) : interStep hk c g pos = g := by
  rw [interStep_some hk c g pos particle hg, if_pos hc]

lemma interStep_dispatch (hk : Hooks) (c : Nat) (g : Grid) (pos : Nat × Nat)
    (particle : Particle) (hg : g pos = some particle)
    (hc : particle.last_update ≠ c) :
    interStep hk c g pos = dispatchHook hk g pos particle := by
  rw [interStep_some hk c g pos particle hg, if_neg hc]

/-- Claim C2: within one step no particle is moved twice by the movement
pass and no reaction hook fires twice on a particle in the interaction
pass, by the generation-stamp mechanism: (i) both passes skip (leave the
grid unchanged at) any particle whose stamp already equals the pass
generation `c`; (ii) immediately after a movement dispatch, the particle
at the behavior-returned coordinates carries stamp `c`; (iii) under the
spec's behavior contract, a particle stamped `c` is preserved untouched
by every further step of the sweep — both over an arbitrary remainder of
the sweep and over the whole movement pass — so a particle relocated
earlier in the same raster sweep is never dispatched again; (iv) the
interaction pass dispatches the reaction hook exactly on the unstamped
particles. -/
theorem c2_no_double_update (bh : Behaviors) (hk : Hooks) (c : Nat)
    (hbh : BehaviorsOk bh c) (g : Grid) (pos q : Nat × Nat)
    (particle p : Particle) (L : List (Nat × Nat)) (W H : Nat) :
    (g pos = some particle → particle.last_update = c → moveStep bh c g pos = g)
    ∧ (g pos = some particle → particle.last_update ≠ c →
        ∃ p2, (moveStep bh c g pos) ((dispatchMove bh g pos particle).2) = some p2
          ∧ p2.last_update = c)
    ∧ (g q = some p → p.last_update = c → (L.foldl (moveStep bh c) g) q = some p)
    ∧ (g q = some p → p.last_update = c → movePass W H bh c g q = some p)
    ∧ (g pos = some particle → particle.last_update = c → interStep hk c g pos = g)
    ∧ (g pos = some particle → particle.last_update ≠ c →
        interStep hk c g pos = dispatchHook hk g pos particle) :=
  ⟨fun hg hc => moveStep_skip bh c g pos particle hg hc,
   fun hg hc => moveStep_stamps bh c hbh g pos particle hg hc,
   fun hq hc => foldl_moveStep_preserves bh c hbh L g q p hq hc,
   fun hq hc => foldl_moveStep_preserves bh c hbh (rasterXY W H) g q p hq hc,
   fun hg hc => interStep_skip hk c g pos particle hg hc,
   fun hg hc => interStep_dispatch hk c g pos particle hg hc⟩

/-- A one-particle grid used to instantiate the C2 and C9 theorems. -/
def oneSandGrid : Grid :=
  fun q => if q = (0, 0) then some (Particle.new ParticleType.Sand 0) else none

/-- Witness for C2: the identity registry satisfies the movement contract,
and the theorem instantiates at a concrete one-particle grid. -/
theorem c2_no_double_update_witness :
    BehaviorsOk idBehaviors 2 ∧
    ((oneSandGrid (0, 0) = some (Particle.new ParticleType.Sand 0) →
        (Particle.new ParticleType.Sand 0).last_update = 2 →
        moveStep idBehaviors 2 oneSandGrid (0, 0) = oneSandGrid)
    ∧ (oneSandGrid (0, 0) = some (Particle.new ParticleType.Sand 0) →
        (Particle.new ParticleType.Sand 0).last_update ≠ 2 →
        ∃ p2, (moveStep idBehaviors 2 oneSandGrid (0, 0))
            ((dispatchMove idBehaviors oneSandGrid (0, 0)
              (Particle.new ParticleType.Sand 0)).2) = some p2
          ∧ p2.last_update = 2)
    ∧ (oneSandGrid (0, 1) = some (Particle.new ParticleType.Sand 0) →
        (Particle.new ParticleType.Sand 0).last_update = 2 →
        ([(0, 0), (1, 0)].foldl (moveStep idBehaviors 2) oneSandGrid) (0, 1)
          = some (Particle.new ParticleType.Sand 0))
    ∧ (oneSandGrid (0, 1) = some (Particle.new ParticleType.Sand 0) →
        (Particle.new ParticleType.Sand 0).last_update = 2 →
        movePass 3 3 idBehaviors 2 oneSandGrid (0, 1)
          = some (Particle.new ParticleType.Sand 0))
    ∧ (oneSandGrid (0, 0) = some (Particle.new ParticleType.Sand 0) →
        (Particle.new ParticleType.Sand 0).last_update = 2 →
        interStep idHooks 2 oneSandGrid (0, 0) = oneSandGrid)
    ∧ (oneSandGrid (0, 0) = some (Particle.new ParticleType.Sand 0) →
        (Particle.new ParticleType.Sand 0).last_update ≠ 2 →
        interStep idHooks 2 oneSandGrid (0, 0)
          = dispatchHook idHooks oneSandGrid (0, 0)
              (Particle.new ParticleType.Sand 0))) :=
  ⟨idBehaviors_ok 2,
    c2_no_double_update idBehaviors idHooks 2 (idBehaviors_ok 2) oneSandGrid
      (0, 0) (0, 1) (Particle.new ParticleType.Sand 0)
      (Particle.new ParticleType.Sand 0) [(0, 0), (1, 0)] 3 3⟩

/-- A registry whose powder strategy violates the movement contract: it
claims the (empty) cell `(0, 1)` while leaving the grid unchanged.  Used
to exhibit the panic branch of the stamping `unwrap` for C9. -/
def badBehaviors : Behaviors :=
  { move_powder := fun g _ => (g, (0, 1))
    move_solid := fun g pos => (g, pos)
    move_liquid := fun g pos => (g, pos)
    move_electricity := fun g pos => (g, pos) }

/-- Claim C9: after every movement dispatch the pass unconditionally
unwraps the cell at the behavior-returned coordinates in order to stamp
it.  If that cell is empty the unwrap is the panic branch
(`moveStepChecked` returns `none`, not a recoverable value); when the
behavior contract "the returned cell holds the particle" is met, the
checked pass agrees with the total one, so the panic is unreachable. -/
theorem c9_stamp_unwrap (bh : Behaviors) (c : Nat) (g : Grid) (pos : Nat × Nat)
    (particle : Particle) (hg : g pos = some particle)
    (hc : particle.last_update ≠ c) :
    ((dispatchMove bh g pos particle).1 ((dispatchMove bh g pos particle).2) = none →
      moveStepChecked bh c g pos = none)
    ∧ (∀ p2, (dispatchMove bh g pos particle).1 ((dispatchMove bh g pos particle).2)
          = some p2 →
        moveStepChecked bh c g pos = some (moveStep bh c g pos)) := by
  constructor
  · intro h
    rw [moveStepChecked_some bh c g pos particle hg, if_neg hc]
    unfold stampChecked
    rw [h]
  · intro p2 h
    rw [moveStepChecked_some bh c g pos particle hg, if_neg hc,
      moveStep_some bh c g pos particle hg, if_neg hc]
    unfold stampChecked stampAt
    rw [h]
    refine congrArg some (funext fun qq => ?_)
    by_cases hqq : qq = (dispatchMove bh g pos particle).2
    · rw [if_pos hqq, if_pos hqq, hqq, h]
      rfl
    · rw [if_neg hqq, if_neg hqq]

/-- Witness for C9: on the one-particle grid, the contract-violating
registry drives the stamping unwrap into its panic branch. -/
theorem c9_stamp_unwrap_witness :
    (oneSandGrid (0, 0) = some (Particle.new ParticleType.Sand 0)
      ∧ (Particle.new ParticleType.Sand 0).last_update ≠ 1) ∧
    (((dispatchMove badBehaviors oneSandGrid (0, 0) (Particle.new ParticleType.Sand 0)).1
        ((dispatchMove badBehaviors oneSandGrid (0, 0)
          (Particle.new ParticleType.Sand 0)).2) = none →
      moveStepChecked badBehaviors 1 oneSandGrid (0, 0) = none)
    ∧ (∀ p2, (dispatchMove badBehaviors oneSandGrid (0, 0)
            (Particle.new ParticleType.Sand 0)).1
          ((dispatchMove badBehaviors oneSandGrid (0, 0)
            (Particle.new ParticleType.Sand 0)).2) = some p2 →
        moveStepChecked badBehaviors 1 oneSandGrid (0, 0)
          = some (moveStep badBehaviors 1 oneSandGrid (0, 0)))) :=
  ⟨⟨by decide, by decide⟩,
    c9_stamp_unwrap badBehaviors 1 oneSandGrid (0, 0)
      (Particle.new ParticleType.Sand 0) (by decide) (by decide)⟩

/-- Witness for C10 at a Water particle at its default temperature -10. -/
theorem c10_abs_min_panic_witness :
    (-32768 < (Particle.new ParticleType.Water 0).tempature) ∧
    (i16_checked_abs (-32768) = none
    ∧ pixelColorChecked zeroNoise zeroUnstable 0
        (some { Particle.new ParticleType.Water 0 with tempature := -32768 }) = none
    ∧ pixelColorChecked zeroNoise zeroUnstable 0
        (some (Particle.new ParticleType.Water 0))
      = some (pixelColor zeroNoise zeroUnstable 0
          (some (Particle.new ParticleType.Water 0)))) :=
  ⟨by decide,
    c10_abs_min_panic zeroNoise zeroUnstable 0 (Particle.new ParticleType.Water 0)
      (by decide)⟩

/-! ### The diffusion pass on an isolated pair (C1) -/

lemma wrap16_id (x : Int) (h1 : -32768 ≤ x) (h2 : x ≤ 32767) : wrap16 x = x := by
  unfold wrap16
  omega

lemma wrap16_wrap_add (x y : Int) : wrap16 (wrap16 x + y) = wrap16 (x + y) := by
  unfold wrap16
  omega

lemma wrap16_wrap_sub (x y : Int) : wrap16 (wrap16 x - y) = wrap16 (x - y) := by
  unfold wrap16
  omega

lemma natCast_tdiv (m n : Nat) : ((m : Int)).tdiv ((n : Int)) = ((m / n : Nat) : Int) := rfl

lemma neg_natCast_tdiv (m n : Nat) :
    (-(m : Int)).tdiv ((n : Int)) = -((m / n : Nat) : Int) := by
  rw [Int.neg_tdiv, natCast_tdiv]

/-- The range of one cell's post-pass temperature on an isolated pair:
for `i16` inputs and a conductivity sum between 4 and 16, the value
`a - a/tc + b/tc` (truncating division) stays inside the `i16` range, so
the two wrapping `i16` additions of the pass do not actually wrap. -/
lemma tdiv_result_range (a b : Int) (tcn : Nat)
    (ha1 : -32768 ≤ a) (ha2 : a ≤ 32767) (hb1 : -32768 ≤ b) (hb2 : b ≤ 32767)
    (h4 : 4 ≤ tcn) (h16 : tcn ≤ 16) :
    -32768 ≤ a - a.tdiv (tcn : Int) + b.tdiv (tcn : Int)
      ∧ a - a.tdiv (tcn : Int) + b.tdiv (tcn : Int) ≤ 32767 := by
  rcases le_or_lt 0 a with hA | hA <;> rcases le_or_lt 0 b with hB | hB
  · obtain ⟨ma, rfl⟩ := Int.eq_ofNat_of_zero_le hA
    obtain ⟨mb, rfl⟩ := Int.eq_ofNat_of_zero_le hB
    rw [natCast_tdiv, natCast_tdiv]
    interval_cases tcn <;> omega
  · obtain ⟨ma, rfl⟩ := Int.eq_ofNat_of_zero_le hA
    obtain ⟨mb, hmb⟩ : ∃ m : Nat, b = -(m : Int) := ⟨b.natAbs, by omega⟩
    subst hmb
    rw [natCast_tdiv, neg_natCast_tdiv]
    interval_cases tcn <;> omega
  · obtain ⟨ma, hma⟩ : ∃ m : Nat, a = -(m : Int) := ⟨a.natAbs, by omega⟩
    subst hma
    obtain ⟨mb, rfl⟩ := Int.eq_ofNat_of_zero_le hB
    rw [natCast_tdiv, neg_natCast_tdiv]
    interval_cases tcn <;> omega
  · obtain ⟨ma, hma⟩ : ∃ m : Nat, a = -(m : Int) := ⟨a.natAbs, by omega⟩
    subst hma
    obtain ⟨mb, hmb⟩ : ∃ m : Nat, b = -(m : Int) := ⟨b.natAbs, by omega⟩
    subst hmb
    rw [neg_natCast_tdiv, neg_natCast_tdiv]
    interval_cases tcn <;> omega

lemma tc_sum_range (A B : ParticleType) :
    4 ≤ thermal_conductivity A + thermal_conductivity B
      ∧ thermal_conductivity A + thermal_conductivity B ≤ 16 := by
  revert A B
  decide

lemma pair_ne_of_fst {a b c d : Nat} (h : a ≠ c) : (a, b) ≠ (c, d) :=
  fun he => h (congrArg Prod.fst he)

lemma pair_ne_of_snd {a b c d : Nat} (h : b ≠ d) : (a, b) ≠ (c, d) :=
  fun he => h (congrArg Prod.snd he)

lemma subTempAt_at (g : Grid) (pos : Nat × Nat) (d : Int) :
    subTempAt g pos d pos
      = (g pos).map (fun p => { p with tempature := wrap16 (p.tempature - d) }) := by
  unfold subTempAt
  rw [if_pos rfl]

lemma subTempAt_ne (g : Grid) (pos : Nat × Nat) (d : Int) (q : Nat × Nat)
    (h : q ≠ pos) : subTempAt g pos d q = g q := by
  unfold subTempAt
  rw [if_neg h]

lemma addTempAt_at (g : Grid) (pos : Nat × Nat) (d : Int) :
    addTempAt g pos d pos
      = (g pos).map (fun p => { p with tempature := wrap16 (p.tempature + d) }) := by
  unfold addTempAt
  rw [if_pos rfl]

lemma addTempAt_ne (g : Grid) (pos : Nat × Nat) (d : Int) (q : Nat × Nat)
    (h : q ≠ pos) : addTempAt g pos d q = g q := by
  unfold addTempAt
  rw [if_neg h]

lemma diffTransfer_none (p1 : Particle) (g : Grid) (src nbr : Nat × Nat)
    (h : g nbr = none) : diffTransfer p1 g src nbr = g := by
  unfold diffTransfer
  rw [h]

lemma diffTransfer_some (p1 p2 : Particle) (g : Grid) (src nbr : Nat × Nat)
    (h : g nbr = some p2) :
    diffTransfer p1 g src nbr
      = addTempAt (subTempAt g src (p1.tempature.tdiv
          (thermal_conductivity p1.ptype + thermal_conductivity p2.ptype))) nbr
          (p1.tempature.tdiv
            (thermal_conductivity p1.ptype + thermal_conductivity p2.ptype)) := by
  unfold diffTransfer
  rw [h]

lemma diffDir_skip (particle1 : Particle) (c : Prop) [Decidable c]
    (src nbr : Nat × Nat) (g : Grid) (h : c → g nbr = none) :
    diffDir particle1 c src nbr g = g := by
  unfold diffDir
  by_cases hc : c
  · rw [if_pos hc]
    exact diffTransfer_none particle1 g src nbr (h hc)
  · rw [if_neg hc]

lemma diffDir_pos (particle1 p2 : Particle) (c : Prop) [Decidable c]
    (src nbr : Nat × Nat) (g : Grid) (hc : c) (h : g nbr = some p2) :
    diffDir particle1 c src nbr g
      = addTempAt (subTempAt g src (particle1.tempature.tdiv
          (thermal_conductivity particle1.ptype + thermal_conductivity p2.ptype))) nbr
          (particle1.tempature.tdiv
            (thermal_conductivity particle1.ptype + thermal_conductivity p2.ptype)) := by
  unfold diffDir
  rw [if_pos hc]
  exact diffTransfer_some particle1 p2 g src nbr h

lemma diffStep_none (W H : Nat) (copy g : Grid) (pos : Nat × Nat)
    (h : copy pos = none) : diffStep W H copy g pos = g := by
  unfold diffStep
  rw [h]

lemma diffStep_some (W H x y : Nat) (copy g : Grid)
    (particle1 : Particle) (h : copy (x, y) = some particle1) :
    diffStep W H copy g (x, y) =
      diffDir particle1 (x ≠ 0) (x, y) (x - 1, y)
        (diffDir particle1 (y ≠ 0) (x, y) (x, y - 1)
          (diffDir particle1 (x ≠ W - 1) (x, y) (x + 1, y)
            (diffDir particle1 (y ≠ H - 1) (x, y) (x, y + 1) g))) := by
  unfold diffStep
  rw [h]

lemma foldl_flatMap_eq {α β γ : Type} (f : β → α → β) (gg : γ → List α)
    (L : List γ) (init : β) :
    (L.flatMap gg).foldl f init = L.foldl (fun acc cc => (gg cc).foldl f acc) init := by
  induction L generalizing init with
  | nil => rfl
  | cons a t ih =>
    rw [List.flatMap_cons, List.foldl_append, List.foldl_cons]
    exact ih _

lemma foldl_id_on {α : Type} {β : Type} (f : β → α → β) (L : List α)
    (h : ∀ p ∈ L, ∀ gg, f gg p = gg) : ∀ gg, L.foldl f gg = gg := by
  induction L with
  | nil => intro gg; rfl
  | cons a t ih =>
    intro gg
    rw [List.foldl_cons, h a (List.mem_cons_self a t)]
    exact ih (fun p hp g2 => h p (List.mem_cons_of_mem a hp) g2) gg

/-- Processing the top cell of an isolated vertical pair: only the
downward exchange fires; the source loses and the neighbour gains
`flow₁ = t₁ / tc` computed from the snapshot. -/
lemma diffStep_pair_first (W H x y : Nat) (p1 p2 : Particle) (g : Grid)
    (hy : y + 1 < H)
    (hg1 : g (x, y) = some p1) (hg2 : g (x, y + 1) = some p2)
    (hiso : ∀ q, q ≠ (x, y) → q ≠ (x, y + 1) → g q = none) :
    diffStep W H g g (x, y)
      = addTempAt (subTempAt g (x, y) (p1.tempature.tdiv
          (thermal_conductivity p1.ptype + thermal_conductivity p2.ptype))) (x, y + 1)
          (p1.tempature.tdiv
            (thermal_conductivity p1.ptype + thermal_conductivity p2.ptype)) := by
  rw [diffStep_some W H x y g g p1 hg1]
  rw [diffDir_pos p1 p2 (y ≠ H - 1) (x, y) (x, y + 1) g (by omega) hg2]
  rw [diffDir_skip p1 (x ≠ W - 1) (x, y) (x + 1, y) _ (fun _ => by
    rw [addTempAt_ne _ _ _ _ (pair_ne_of_fst (by omega)),
      subTempAt_ne _ _ _ _ (pair_ne_of_fst (by omega))]
    exact hiso (x + 1, y) (pair_ne_of_fst (by omega)) (pair_ne_of_fst (by omega)))]
  rw [diffDir_skip p1 (y ≠ 0) (x, y) (x, y - 1) _ (fun hc => by
    rw [addTempAt_ne _ _ _ _ (pair_ne_of_snd (by omega)),
      subTempAt_ne _ _ _ _ (pair_ne_of_snd (by omega))]
    exact hiso (x, y - 1) (pair_ne_of_snd (by omega)) (pair_ne_of_snd (by omega)))]
  rw [diffDir_skip p1 (x ≠ 0) (x, y) (x - 1, y) _ (fun hc => by
    rw [addTempAt_ne _ _ _ _ (pair_ne_of_fst (by omega)),
      subTempAt_ne _ _ _ _ (pair_ne_of_fst (by omega))]
    exact hiso (x - 1, y) (pair_ne_of_fst (by omega)) (pair_ne_of_fst (by omega)))]

/-- Processing the bottom cell of an isolated vertical pair against the
live grid left by the first step: only the upward exchange fires, with
`flow₂ = t₂ / tc` computed from the (pre-pass) snapshot temperature of
the bottom particle. -/
lemma diffStep_pair_second (W H x y : Nat) (p1 p2 : Particle) (g : Grid)
    (hy : y + 1 < H)
    (hg1 : g (x, y) = some p1) (hg2 : g (x, y + 1) = some p2)
    (hiso : ∀ q, q ≠ (x, y) → q ≠ (x, y + 1) → g q = none) :
    diffStep W H g
        (addTempAt (subTempAt g (x, y) (p1.tempature.tdiv
          (thermal_conductivity p1.ptype + thermal_conductivity p2.ptype))) (x, y + 1)
          (p1.tempature.tdiv
            (thermal_conductivity p1.ptype + thermal_conductivity p2.ptype))) (x, y + 1)
      = addTempAt (subTempAt
          (addTempAt (subTempAt g (x, y) (p1.tempature.tdiv
            (thermal_conductivity p1.ptype + thermal_conductivity p2.ptype))) (x, y + 1)
            (p1.tempature.tdiv
              (thermal_conductivity p1.ptype + thermal_conductivity p2.ptype)))
          (x, y + 1) (p2.tempature.tdiv
            (thermal_conductivity p2.ptype + thermal_conductivity p1.ptype))) (x, y)
          (p2.tempature.tdiv
            (thermal_conductivity p2.ptype + thermal_conductivity p1.ptype)) := by
  set f1 := p1.tempature.tdiv
    (thermal_conductivity p1.ptype + thermal_conductivity p2.ptype) with hf1
  set gA := addTempAt (subTempAt g (x, y) f1) (x, y + 1) f1 with hgA
  have hAtop : gA (x, y) = some { p1 with tempature := wrap16 (p1.tempature - f1) } := by
    rw [hgA, addTempAt_ne _ _ _ _ (pair_ne_of_snd (by omega)), subTempAt_at, hg1]
    rfl
  rw [diffStep_some W H x (y + 1) g gA p2 hg2]
  rw [diffDir_skip p2 (y + 1 ≠ H - 1) (x, y + 1) (x, y + 1 + 1) _ (fun _ => by
    rw [hgA, addTempAt_ne _ _ _ _ (pair_ne_of_snd (by omega)),
      subTempAt_ne _ _ _ _ (pair_ne_of_snd (by omega))]
    exact hiso (x, y + 1 + 1) (pair_ne_of_snd (by omega)) (pair_ne_of_snd (by omega)))]
  rw [diffDir_skip p2 (x ≠ W - 1) (x, y + 1) (x + 1, y + 1) _ (fun _ => by
    rw [hgA, addTempAt_ne _ _ _ _ (pair_ne_of_fst (by omega)),
      subTempAt_ne _ _ _ _ (pair_ne_of_fst (by omega))]
    exact hiso (x + 1, y + 1) (pair_ne_of_fst (by omega)) (pair_ne_of_fst (by omega)))]
  have hidx : y + 1 - 1 = y := rfl
  rw [hidx]
  rw [diffDir_pos p2 { p1 with tempature := wrap16 (p1.tempature - f1) } (y + 1 ≠ 0)
    (x, y + 1) (x, y) gA (by omega) hAtop]
  rw [diffDir_skip p2 (x ≠ 0) (x, y + 1) (x - 1, y + 1) _ (fun hc => by
    rw [addTempAt_ne _ _ _ _ (pair_ne_of_fst (by omega)),
      subTempAt_ne _ _ _ _ (pair_ne_of_fst (by omega)),
      hgA, addTempAt_ne _ _ _ _ (pair_ne_of_fst (by omega)),
      subTempAt_ne _ _ _ _ (pair_ne_of_fst (by omega))]
    exact hiso (x - 1, y + 1) (pair_ne_of_fst (by omega)) (pair_ne_of_fst (by omega)))]

/-- The full diffusion pass on a grid whose only particles are a vertical
pair at `(x, y)` and `(x, y + 1)`: every other raster position is skipped
(its snapshot cell is empty), and the two exchanges of the pair compose. -/
lemma diffusionPass_pair (W H x y : Nat) (p1 p2 : Particle) (g : Grid)
    (hx : x < W) (hy : y + 1 < H)
    (hg1 : g (x, y) = some p1) (hg2 : g (x, y + 1) = some p2)
    (hiso : ∀ q, q ≠ (x, y) → q ≠ (x, y + 1) → g q = none) :
    diffusionPass W H g
      = addTempAt (subTempAt
          (addTempAt (subTempAt g (x, y) (p1.tempature.tdiv
            (thermal_conductivity p1.ptype + thermal_conductivity p2.ptype))) (x, y + 1)
            (p1.tempature.tdiv
              (thermal_conductivity p1.ptype + thermal_conductivity p2.ptype)))
          (x, y + 1) (p2.tempature.tdiv
            (thermal_conductivity p2.ptype + thermal_conductivity p1.ptype))) (x, y)
          (p2.tempature.tdiv
            (thermal_conductivity p2.ptype + thermal_conductivity p1.ptype)) := by
  have hsplitW : List.range W
      = (List.range x ++ [x]) ++ List.map (fun i => x + 1 + i) (List.range (W - x - 1)) := by
    have e1 : W = (x + 1) + (W - x - 1) := by omega
    calc List.range W = List.range ((x + 1) + (W - x - 1)) := by rw [← e1]
    _ = List.range (x + 1) ++ List.map (fun i => (x + 1) + i) (List.range (W - x - 1)) :=
        List.range_add _ _
    _ = (List.range x ++ [x]) ++ List.map (fun i => x + 1 + i) (List.range (W - x - 1)) := by
        rw [List.range_succ]
  have hsplitH : List.range H
      = ((List.range y ++ [y]) ++ [y + 1])
          ++ List.map (fun i => y + 2 + i) (List.range (H - y - 2)) := by
    have e2 : H = (y + 2) + (H - y - 2) := by omega
    calc List.range H = List.range ((y + 2) + (H - y - 2)) := by rw [← e2]
    _ = List.range (y + 2) ++ List.map (fun i => (y + 2) + i) (List.range (H - y - 2)) :=
        List.range_add _ _
    _ = ((List.range y ++ [y]) ++ [y + 1])
          ++ List.map (fun i => y + 2 + i) (List.range (H - y - 2)) := by
        rw [List.range_succ, List.range_succ]
  have hsplit : rasterXY W H
      = ((List.range x).flatMap (fun a => (List.range H).map (fun b => (a, b)))
          ++ (List.range y).map (fun b => (x, b)))
        ++ ((x, y) :: (x, y + 1) ::
          ((List.map (fun i => y + 2 + i) (List.range (H - y - 2))).map (fun b => (x, b))
            ++ (List.map (fun i => x + 1 + i) (List.range (W - x - 1))).flatMap
                (fun a => (List.range H).map (fun b => (a, b))))) := by
    unfold rasterXY
    conv =>
      lhs
      rw [hsplitW]
    simp only [hsplitH, List.flatMap_append, List.map_append, List.flatMap_cons,
      List.flatMap_nil, List.map_cons, List.map_nil, List.append_nil, List.append_assoc,
      List.cons_append, List.nil_append]
  have hmem1 : ∀ p ∈ (List.range x).flatMap (fun a => (List.range H).map (fun b => (a, b)))
      ++ (List.range y).map (fun b => (x, b)), g p = none := by
    intro p hp
    rcases List.mem_append.mp hp with hpa | hpb
    · rcases List.mem_flatMap.mp hpa with ⟨a, ha, hpm⟩
      rcases List.mem_map.mp hpm with ⟨b, hb, rfl⟩
      have hax : a ≠ x := by
        have := List.mem_range.mp ha
        omega
      exact hiso (a, b) (pair_ne_of_fst hax) (pair_ne_of_fst hax)
    · rcases List.mem_map.mp hpb with ⟨b, hb, rfl⟩
      have hby : b < y := List.mem_range.mp hb
      exact hiso (x, b) (pair_ne_of_snd (by omega)) (pair_ne_of_snd (by omega))
  have hmem2 : ∀ p ∈ (List.map (fun i => y + 2 + i) (List.range (H - y - 2))).map
        (fun b => (x, b))
      ++ (List.map (fun i => x + 1 + i) (List.range (W - x - 1))).flatMap
          (fun a => (List.range H).map (fun b => (a, b))), g p = none := by
    intro p hp
    rcases List.mem_append.mp hp with hpa | hpb
    · rcases List.mem_map.mp hpa with ⟨b, hb, rfl⟩
      rcases List.mem_map.mp hb with ⟨i, hi, rfl⟩
      exact hiso (x, y + 2 + i) (pair_ne_of_snd (by omega)) (pair_ne_of_snd (by omega))
    · rcases List.mem_flatMap.mp hpb with ⟨a, ha, hpm⟩
      rcases List.mem_map.mp hpm with ⟨b, hb, rfl⟩
      rcases List.mem_map.mp ha with ⟨i, hi, rfl⟩
      exact hiso (x + 1 + i, b) (pair_ne_of_fst (by omega)) (pair_ne_of_fst (by omega))
  unfold diffusionPass
  rw [hsplit, List.foldl_append, List.foldl_cons, List.foldl_cons]
  rw [foldl_id_on (diffStep W H g) _ (fun p hp gg => diffStep_none W H g gg p (hmem1 p hp)) g]
  rw [diffStep_pair_first W H x y p1 p2 g hy hg1 hg2 hiso]
  rw [diffStep_pair_second W H x y p1 p2 g hy hg1 hg2 hiso]
  exact foldl_id_on (diffStep W H g) _
    (fun p hp gg => diffStep_none W H g gg p (hmem2 p hp)) _

/-- Processing the left cell of an isolated horizontal pair: only the
rightward exchange fires; the source loses and the neighbour gains
`flow₁ = t₁ / tc` computed from the snapshot. -/
lemma diffStep_pair_first_h (W H u v : Nat) (p3 p4 : Particle) (g : Grid)
    (hu : u + 1 < W)
    (hg1 : g (u, v) = some p3) (hg2 : g (u + 1, v) = some p4)
    (hiso : ∀ q, q ≠ (u, v) → q ≠ (u + 1, v) → g q = none) :
    diffStep W H g g (u, v)
      = addTempAt (subTempAt g (u, v) (p3.tempature.tdiv
          (thermal_conductivity p3.ptype + thermal_conductivity p4.ptype))) (u + 1, v)
          (p3.tempature.tdiv
            (thermal_conductivity p3.ptype + thermal_conductivity p4.ptype)) := by
  rw [diffStep_some W H u v g g p3 hg1]
  rw [diffDir_skip p3 (v ≠ H - 1) (u, v) (u, v + 1) _ (fun _ =>
    hiso (u, v + 1) (pair_ne_of_snd (by omega)) (pair_ne_of_fst (by omega)))]
  rw [diffDir_pos p3 p4 (u ≠ W - 1) (u, v) (u + 1, v) g (by omega) hg2]
  rw [diffDir_skip p3 (v ≠ 0) (u, v) (u, v - 1) _ (fun hc => by
    rw [addTempAt_ne _ _ _ _ (pair_ne_of_fst (by omega)),
      subTempAt_ne _ _ _ _ (pair_ne_of_snd (by omega))]
    exact hiso (u, v - 1) (pair_ne_of_snd (by omega)) (pair_ne_of_fst (by omega)))]
  rw [diffDir_skip p3 (u ≠ 0) (u, v) (u - 1, v) _ (fun hc => by
    rw [addTempAt_ne _ _ _ _ (pair_ne_of_fst (by omega)),
      subTempAt_ne _ _ _ _ (pair_ne_of_fst (by omega))]
    exact hiso (u - 1, v) (pair_ne_of_fst (by omega)) (pair_ne_of_fst (by omega)))]

/-- Processing the right cell of an isolated horizontal pair against the
live grid left by the first step: only the leftward exchange fires, with
`flow₂ = t₂ / tc` computed from the (pre-pass) snapshot temperature of
the right particle. -/
lemma diffStep_pair_second_h (W H u v : Nat) (p3 p4 : Particle) (g : Grid)
    (hu : u + 1 < W)
    (hg1 : g (u, v) = some p3) (hg2 : g (u + 1, v) = some p4)
    (hiso : ∀ q, q ≠ (u, v) → q ≠ (u + 1, v) → g q = none) :
    diffStep W H g
        (addTempAt (subTempAt g (u, v) (p3.tempature.tdiv
          (thermal_conductivity p3.ptype + thermal_conductivity p4.ptype))) (u + 1, v)
          (p3.tempature.tdiv
            (thermal_conductivity p3.ptype + thermal_conductivity p4.ptype))) (u + 1, v)
      = addTempAt (subTempAt
          (addTempAt (subTempAt g (u, v) (p3.tempature.tdiv
            (thermal_conductivity p3.ptype + thermal_conductivity p4.ptype))) (u + 1, v)
            (p3.tempature.tdiv
              (thermal_conductivity p3.ptype + thermal_conductivity p4.ptype)))
          (u + 1, v) (p4.tempature.tdiv
            (thermal_conductivity p4.ptype + thermal_conductivity p3.ptype))) (u, v)
          (p4.tempature.tdiv
            (thermal_conductivity p4.ptype + thermal_conductivity p3.ptype)) := by
  set f1 := p3.tempature.tdiv
    (thermal_conductivity p3.ptype + thermal_conductivity p4.ptype) with hf1
  set gA := addTempAt (subTempAt g (u, v) f1) (u + 1, v) f1 with hgA
  have hAleft : gA (u, v) = some { p3 with tempature := wrap16 (p3.tempature - f1) } := by
    rw [hgA, addTempAt_ne _ _ _ _ (pair_ne_of_fst (by omega)), subTempAt_at, hg1]
    rfl
  rw [diffStep_some W H (u + 1) v g gA p4 hg2]
  rw [diffDir_skip p4 (v ≠ H - 1) (u + 1, v) (u + 1, v + 1) _ (fun _ => by
    rw [hgA, addTempAt_ne _ _ _ _ (pair_ne_of_snd (by omega)),
      subTempAt_ne _ _ _ _ (pair_ne_of_fst (by omega))]
    exact hiso (u + 1, v + 1) (pair_ne_of_fst (by omega)) (pair_ne_of_snd (by omega)))]
  rw [diffDir_skip p4 (u + 1 ≠ W - 1) (u + 1, v) (u + 1 + 1, v) _ (fun _ => by
    rw [hgA, addTempAt_ne _ _ _ _ (pair_ne_of_fst (by omega)),
      subTempAt_ne _ _ _ _ (pair_ne_of_fst (by omega))]
    exact hiso (u + 1 + 1, v) (pair_ne_of_fst (by omega)) (pair_ne_of_fst (by omega)))]
  rw [diffDir_skip p4 (v ≠ 0) (u + 1, v) (u + 1, v - 1) _ (fun hc => by
    rw [hgA, addTempAt_ne _ _ _ _ (pair_ne_of_snd (by omega)),
      subTempAt_ne _ _ _ _ (pair_ne_of_fst (by omega))]
    exact hiso (u + 1, v - 1) (pair_ne_of_fst (by omega)) (pair_ne_of_snd (by omega)))]
  have hidx : u + 1 - 1 = u := rfl
  rw [hidx]
  rw [diffDir_pos p4 { p3 with tempature := wrap16 (p3.tempature - f1) } (u + 1 ≠ 0)
    (u + 1, v) (u, v) gA (by omega) hAleft]

/-- The full diffusion pass on a grid whose only particles are a
horizontal pair at `(u, v)` and `(u + 1, v)`: every other raster position
is skipped, and the two exchanges of the pair compose. -/
lemma diffusionPass_pair_h (W H u v : Nat) (p3 p4 : Particle) (g : Grid)
    (hu : u + 1 < W) (hv : v < H)
    (hg1 : g (u, v) = some p3) (hg2 : g (u + 1, v) = some p4)
    (hiso : ∀ q, q ≠ (u, v) → q ≠ (u + 1, v) → g q = none) :
    diffusionPass W H g
      = addTempAt (subTempAt
          (addTempAt (subTempAt g (u, v) (p3.tempature.tdiv
            (thermal_conductivity p3.ptype + thermal_conductivity p4.ptype))) (u + 1, v)
            (p3.tempature.tdiv
              (thermal_conductivity p3.ptype + thermal_conductivity p4.ptype)))
          (u + 1, v) (p4.tempature.tdiv
            (thermal_conductivity p4.ptype + thermal_conductivity p3.ptype))) (u, v)
          (p4.tempature.tdiv
            (thermal_conductivity p4.ptype + thermal_conductivity p3.ptype)) := by
  have hsplitW : List.range W
      = ((List.range u ++ [u]) ++ [u + 1])
          ++ List.map (fun i => u + 2 + i) (List.range (W - u - 2)) := by
    have e1 : W = (u + 2) + (W - u - 2) := by omega
    calc List.range W = List.range ((u + 2) + (W - u - 2)) := by rw [← e1]
    _ = List.range (u + 2) ++ List.map (fun i => (u + 2) + i) (List.range (W - u - 2)) :=
        List.range_add _ _
    _ = ((List.range u ++ [u]) ++ [u + 1])
          ++ List.map (fun i => u + 2 + i) (List.range (W - u - 2)) := by
        rw [List.range_succ, List.range_succ]
  have hsplitH : List.range H
      = (List.range v ++ [v]) ++ List.map (fun i => v + 1 + i) (List.range (H - v - 1)) := by
    have e2 : H = (v + 1) + (H - v - 1) := by omega
    calc List.range H = List.range ((v + 1) + (H - v - 1)) := by rw [← e2]
    _ = List.range (v + 1) ++ List.map (fun i => (v + 1) + i) (List.range (H - v - 1)) :=
        List.range_add _ _
    _ = (List.range v ++ [v]) ++ List.map (fun i => v + 1 + i) (List.range (H - v - 1)) := by
        rw [List.range_succ]
  have hsplit : rasterXY W H
      = ((List.range u).flatMap (fun a => (List.range H).map (fun b => (a, b)))
          ++ (List.range v).map (fun b => (u, b)))
        ++ ((u, v) ::
          (((List.map (fun i => v + 1 + i) (List.range (H - v - 1))).map (fun b => (u, b))
              ++ (List.range v).map (fun b => (u + 1, b)))
            ++ ((u + 1, v) ::
              ((List.map (fun i => v + 1 + i) (List.range (H - v - 1))).map
                  (fun b => (u + 1, b))
                ++ (List.map (fun i => u + 2 + i) (List.range (W - u - 2))).flatMap
                    (fun a => (List.range H).map (fun b => (a, b))))))) := by
    unfold rasterXY
    conv =>
      lhs
      rw [hsplitW]
    simp only [hsplitH, List.flatMap_append, List.map_append, List.flatMap_cons,
      List.flatMap_nil, List.map_cons, List.map_nil, List.append_nil, List.append_assoc,
      List.cons_append, List.nil_append]
  have hmem1 : ∀ p ∈ (List.range u).flatMap (fun a => (List.range H).map (fun b => (a, b)))
      ++ (List.range v).map (fun b => (u, b)), g p = none := by
    intro p hp
    rcases List.mem_append.mp hp with hpa | hpb
    · rcases List.mem_flatMap.mp hpa with ⟨a, ha, hpm⟩
      rcases List.mem_map.mp hpm with ⟨b, hb, rfl⟩
      have hau : a < u := List.mem_range.mp ha
      exact hiso (a, b) (pair_ne_of_fst (by omega)) (pair_ne_of_fst (by omega))
    · rcases List.mem_map.mp hpb with ⟨b, hb, rfl⟩
      have hbv : b < v := List.mem_range.mp hb
      exact hiso (u, b) (pair_ne_of_snd (by omega)) (pair_ne_of_fst (by omega))
  have hmem15 : ∀ p ∈ (List.map (fun i => v + 1 + i) (List.range (H - v - 1))).map
        (fun b => (u, b))
      ++ (List.range v).map (fun b => (u + 1, b)), g p = none := by
    intro p hp
    rcases List.mem_append.mp hp with hpa | hpb
    · rcases List.mem_map.mp hpa with ⟨b, hb, rfl⟩
      rcases List.mem_map.mp hb with ⟨i, hi, rfl⟩
      exact hiso (u, v + 1 + i) (pair_ne_of_snd (by omega)) (pair_ne_of_fst (by omega))
    · rcases List.mem_map.mp hpb with ⟨b, hb, rfl⟩
      have hbv : b < v := List.mem_range.mp hb
      exact hiso (u + 1, b) (pair_ne_of_fst (by omega)) (pair_ne_of_snd (by omega))
  have hmem2 : ∀ p ∈ (List.map (fun i => v + 1 + i) (List.range (H - v - 1))).map
        (fun b => (u + 1, b))
      ++ (List.map (fun i => u + 2 + i) (List.range (W - u - 2))).flatMap
          (fun a => (List.range H).map (fun b => (a, b))), g p = none := by
    intro p hp
    rcases List.mem_append.mp hp with hpa | hpb
    · rcases List.mem_map.mp hpa with ⟨b, hb, rfl⟩
      rcases List.mem_map.mp hb with ⟨i, hi, rfl⟩
      exact hiso (u + 1, v + 1 + i) (pair_ne_of_fst (by omega)) (pair_ne_of_snd (by omega))
    · rcases List.mem_flatMap.mp hpb with ⟨a, ha, hpm⟩
      rcases List.mem_map.mp hpm with ⟨b, hb, rfl⟩
      rcases List.mem_map.mp ha with ⟨i, hi, rfl⟩
      exact hiso (u + 2 + i, b) (pair_ne_of_fst (by omega)) (pair_ne_of_fst (by omega))
  unfold diffusionPass
  rw [hsplit, List.foldl_append, List.foldl_cons]
  rw [foldl_id_on (diffStep W H g) _ (fun p hp gg => diffStep_none W H g gg p (hmem1 p hp)) g]
  rw [diffStep_pair_first_h W H u v p3 p4 g hu hg1 hg2 hiso]
  rw [List.foldl_append]
  rw [foldl_id_on (diffStep W H g) _
    (fun p hp gg => diffStep_none W H g gg p (hmem15 p hp)) _]
  rw [List.foldl_cons]
  rw [diffStep_pair_second_h W H u v p3 p4 g hu hg1 hg2 hiso]
  exact foldl_id_on (diffStep W H g) _
    (fun p hp gg => diffStep_none W H g gg p (hmem2 p hp)) _

/-- The values of the two cells after the composed exchanges of an
isolated pair, at arbitrary distinct positions: the wrapping `i16`
updates compose and never wrap for `i16` inputs, leaving exactly
`t1 - t1/tc + t2/tc` and `t2 + t1/tc - t2/tc`. -/
lemma pair_exchange_values (g : Grid) (posA posB : Nat × Nat) (p1 p2 : Particle)
    (hne : posA ≠ posB) (hg1 : g posA = some p1) (hg2 : g posB = some p2)
    (ht1a : -32768 ≤ p1.tempature) (ht1b : p1.tempature ≤ 32767)
    (ht2a : -32768 ≤ p2.tempature) (ht2b : p2.tempature ≤ 32767) :
    addTempAt (subTempAt
        (addTempAt (subTempAt g posA (p1.tempature.tdiv
          (thermal_conductivity p1.ptype + thermal_conductivity p2.ptype))) posB
          (p1.tempature.tdiv
            (thermal_conductivity p1.ptype + thermal_conductivity p2.ptype)))
        posB (p2.tempature.tdiv
          (thermal_conductivity p1.ptype + thermal_conductivity p2.ptype))) posA
        (p2.tempature.tdiv
          (thermal_conductivity p1.ptype + thermal_conductivity p2.ptype)) posA
      = some { p1 with tempature :=
          (p1.tempature
            - p1.tempature.tdiv
                (thermal_conductivity p1.ptype + thermal_conductivity p2.ptype)
            + p2.tempature.tdiv
                (thermal_conductivity p1.ptype + thermal_conductivity p2.ptype)) }
    ∧ addTempAt (subTempAt
        (addTempAt (subTempAt g posA (p1.tempature.tdiv
          (thermal_conductivity p1.ptype + thermal_conductivity p2.ptype))) posB
          (p1.tempature.tdiv
            (thermal_conductivity p1.ptype + thermal_conductivity p2.ptype)))
        posB (p2.tempature.tdiv
          (thermal_conductivity p1.ptype + thermal_conductivity p2.ptype))) posA
        (p2.tempature.tdiv
          (thermal_conductivity p1.ptype + thermal_conductivity p2.ptype)) posB
      = some { p2 with tempature :=
          (p2.tempature
            + p1.tempature.tdiv
                (thermal_conductivity p1.ptype + thermal_conductivity p2.ptype)
            - p2.tempature.tdiv
                (thermal_conductivity p1.ptype + thermal_conductivity p2.ptype)) } := by
  obtain ⟨h4, h16⟩ := tc_sum_range p1.ptype p2.ptype
  have htcn : (((thermal_conductivity p1.ptype + thermal_conductivity p2.ptype).toNat
      : Nat) : Int) = thermal_conductivity p1.ptype + thermal_conductivity p2.ptype := by
    omega
  have hb1 := tdiv_result_range p1.tempature p2.tempature
    (thermal_conductivity p1.ptype + thermal_conductivity p2.ptype).toNat
    ht1a ht1b ht2a ht2b (by omega) (by omega)
  have hb2 := tdiv_result_range p2.tempature p1.tempature
    (thermal_conductivity p1.ptype + thermal_conductivity p2.ptype).toNat
    ht2a ht2b ht1a ht1b (by omega) (by omega)
  rw [htcn] at hb1 hb2
  have hval1 : wrap16 (p1.tempature
        - p1.tempature.tdiv
            (thermal_conductivity p1.ptype + thermal_conductivity p2.ptype)
        + p2.tempature.tdiv
            (thermal_conductivity p1.ptype + thermal_conductivity p2.ptype))
      = p1.tempature
        - p1.tempature.tdiv
            (thermal_conductivity p1.ptype + thermal_conductivity p2.ptype)
        + p2.tempature.tdiv
            (thermal_conductivity p1.ptype + thermal_conductivity p2.ptype) :=
    wrap16_id _ (by omega) (by omega)
  have hval2 : wrap16 (p2.tempature
        + p1.tempature.tdiv
            (thermal_conductivity p1.ptype + thermal_conductivity p2.ptype)
        - p2.tempature.tdiv
            (thermal_conductivity p1.ptype + thermal_conductivity p2.ptype))
      = p2.tempature
        + p1.tempature.tdiv
            (thermal_conductivity p1.ptype + thermal_conductivity p2.ptype)
        - p2.tempature.tdiv
            (thermal_conductivity p1.ptype + thermal_conductivity p2.ptype) :=
    wrap16_id _ (by omega) (by omega)
  constructor
  · rw [addTempAt_at, subTempAt_ne _ _ _ _ hne, addTempAt_ne _ _ _ _ hne,
      subTempAt_at, hg1]
    simp only [Option.map_some']
    rw [wrap16_wrap_add, hval1]
  · rw [addTempAt_ne _ _ _ _ (Ne.symm hne), subTempAt_at, addTempAt_at,
      subTempAt_ne _ _ _ _ (Ne.symm hne), hg2]
    simp only [Option.map_some']
    rw [wrap16_wrap_sub, hval2]

/-- Claim C1 (amended): for a single isolated axis-adjacent pair —
vertical (`(x, y)` above `(x, y + 1)`) or horizontal (`(u, v)` left of
`(u + 1, v)`) — with pre-pass temperatures `t1` and `t2` and conductivity
sum `tc`, one thermal-diffusion pass performs *both* cells' exchanges,
each with a flow computed by truncating (toward-zero) division from the
pre-pass snapshot: the first cell ends at `t1 - trunc(t1/tc) +
trunc(t2/tc)` and the second at `t2 + trunc(t1/tc) - trunc(t2/tc)`,
valid for positive and negative temperatures across the whole `i16`
range (no intermediate wrap survives).  The claim's one-sided formula
describes only one cell's exchange; for two Water particles both at -10
the two flows of -1 cancel and both particles stay at -10 (see the
counterexample). -/
theorem c1_isolated_pair_diffusion (W H x y u v : Nat) (p1 p2 p3 p4 : Particle)
    (gV gH : Grid)
    (hx : x < W) (hy : y + 1 < H)
    (hgV1 : gV (x, y) = some p1) (hgV2 : gV (x, y + 1) = some p2)
    (hisoV : ∀ q, q ≠ (x, y) → q ≠ (x, y + 1) → gV q = none)
    (hu : u + 1 < W) (hv : v < H)
    (hgH1 : gH (u, v) = some p3) (hgH2 : gH (u + 1, v) = some p4)
    (hisoH : ∀ q, q ≠ (u, v) → q ≠ (u + 1, v) → gH q = none)
    (ht1a : -32768 ≤ p1.tempature) (ht1b : p1.tempature ≤ 32767)
    (ht2a : -32768 ≤ p2.tempature) (ht2b : p2.tempature ≤ 32767)
    (ht3a : -32768 ≤ p3.tempature) (ht3b : p3.tempature ≤ 32767)
    (ht4a : -32768 ≤ p4.tempature) (ht4b : p4.tempature ≤ 32767) :
    diffusionPass W H gV (x, y) = some { p1 with tempature :=
        (p1.tempature
          - p1.tempature.tdiv
              (thermal_conductivity p1.ptype + thermal_conductivity p2.ptype)
          + p2.tempature.tdiv
              (thermal_conductivity p1.ptype + thermal_conductivity p2.ptype)) }
    ∧ diffusionPass W H gV (x, y + 1) = some { p2 with tempature :=
        (p2.tempature
          + p1.tempature.tdiv
              (thermal_conductivity p1.ptype + thermal_conductivity p2.ptype)
          - p2.tempature.tdiv
              (thermal_conductivity p1.ptype + thermal_conductivity p2.ptype)) }
    ∧ diffusionPass W H gH (u, v) = some { p3 with tempature :=
        (p3.tempature
          - p3.tempature.tdiv
              (thermal_conductivity p3.ptype + thermal_conductivity p4.ptype)
          + p4.tempature.tdiv
              (thermal_conductivity p3.ptype + thermal_conductivity p4.ptype)) }
    ∧ diffusionPass W H gH (u + 1, v) = some { p4 with tempature :=
        (p4.tempature
          + p3.tempature.tdiv
              (thermal_conductivity p3.ptype + thermal_conductivity p4.ptype)
          - p4.tempature.tdiv
              (thermal_conductivity p3.ptype + thermal_conductivity p4.ptype)) } := by
  have hpassV := diffusionPass_pair W H x y p1 p2 gV hx hy hgV1 hgV2 hisoV
  rw [show thermal_conductivity p2.ptype + thermal_conductivity p1.ptype
      = thermal_conductivity p1.ptype + thermal_conductivity p2.ptype from
      Int.add_comm _ _] at hpassV
  have hpassH := diffusionPass_pair_h W H u v p3 p4 gH hu hv hgH1 hgH2 hisoH
  rw [show thermal_conductivity p4.ptype + thermal_conductivity p3.ptype
      = thermal_conductivity p3.ptype + thermal_conductivity p4.ptype from
      Int.add_comm _ _] at hpassH
  have hV := pair_exchange_values gV (x, y) (x, y + 1) p1 p2
    (pair_ne_of_snd (by omega)) hgV1 hgV2 ht1a ht1b ht2a ht2b
  have hH := pair_exchange_values gH (u, v) (u + 1, v) p3 p4
    (pair_ne_of_fst (by omega)) hgH1 hgH2 ht3a ht3b ht4a ht4b
  exact ⟨by rw [hpassV]; exact hV.1, by rw [hpassV]; exact hV.2,
    by rw [hpassH]; exact hH.1, by rw [hpassH]; exact hH.2⟩

/-- The grid of the spec's scenario: two Water particles vertically
adjacent at the top-left corner, empty everywhere else. -/
def waterPairGrid : Grid := fun q =>
  if q = (0, 0) then some (Particle.new ParticleType.Water 0)
  else if q = (0, 1) then some (Particle.new ParticleType.Water 0)
  else none

/-- Counterexample to claim C1 as stated: for the spec's scenario — two
Water particles vertically adjacent, both at temperature -10, `tc = 10`,
`flow = -1` — one full diffusion pass leaves *both* particles at -10
(each cell's own exchange is cancelled by its neighbour's), not at -9 and
-11 as claimed. -/
theorem c1_water_pair_counterexample :
    diffusionPass 600 400 waterPairGrid (0, 0) = some (Particle.new ParticleType.Water 0)
    ∧ diffusionPass 600 400 waterPairGrid (0, 1) = some (Particle.new ParticleType.Water 0)
    ∧ (Particle.new ParticleType.Water 0).tempature = -10
    ∧ ((-10 : Int) ≠ -9 ∧ (-10 : Int) ≠ -11) := by
  have hpass := diffusionPass_pair 600 400 0 0
    (Particle.new ParticleType.Water 0) (Particle.new ParticleType.Water 0) waterPairGrid
    (by omega) (by omega) (by decide) (by decide)
    (fun q h1 h2 => by unfold waterPairGrid; rw [if_neg h1, if_neg h2])
  refine ⟨?_, ?_, by decide, by decide, by decide⟩
  · rw [hpass]
    decide
  · rw [hpass]
    decide

/-- A Sand particle heated to +100, used in the C1 witness. -/
def sandHot : Particle := { Particle.new ParticleType.Sand 0 with tempature := 100 }

/-- A Water particle at -7, used in the C1 witness. -/
def waterCold : Particle := { Particle.new ParticleType.Water 0 with tempature := -7 }

/-- An Acid particle at -100, used in the C1 witness. -/
def acidCold : Particle := { Particle.new ParticleType.Acid 0 with tempature := -100 }

/-- An Iridium particle at +50, used in the C1 witness. -/
def iridiumWarm : Particle := { Particle.new ParticleType.Iridium 0 with tempature := 50 }

/-- A mixed isolated vertical pair used to instantiate the amended C1
theorem: Sand at +100 above Water at -7 (conductivity sum 8). -/
def mixedPairGrid : Grid := fun q =>
  if q = (2, 3) then some sandHot
  else if q = (2, 4) then some waterCold
  else none

/-- A mixed isolated horizontal pair used to instantiate the amended C1
theorem: Acid at -100 left of Iridium at +50 (conductivity sum 10). -/
def horizPairGrid : Grid := fun q =>
  if q = (5, 7) then some acidCold
  else if q = (6, 7) then some iridiumWarm
  else none

/-- Witness for C1 (amended) on a vertical Sand/Water pair and a
horizontal Acid/Iridium pair. -/
theorem c1_isolated_pair_diffusion_witness :
    (2 < 600 ∧ 3 + 1 < 400
      ∧ mixedPairGrid (2, 3) = some sandHot
      ∧ mixedPairGrid (2, 4) = some waterCold
      ∧ (∀ q, q ≠ (2, 3) → q ≠ (2, 4) → mixedPairGrid q = none)
      ∧ 5 + 1 < 600 ∧ 7 < 400
      ∧ horizPairGrid (5, 7) = some acidCold
      ∧ horizPairGrid (5 + 1, 7) = some iridiumWarm
      ∧ (∀ q, q ≠ (5, 7) → q ≠ (5 + 1, 7) → horizPairGrid q = none)
      ∧ -32768 ≤ sandHot.tempature ∧ sandHot.tempature ≤ 32767
      ∧ -32768 ≤ waterCold.tempature ∧ waterCold.tempature ≤ 32767
      ∧ -32768 ≤ acidCold.tempature ∧ acidCold.tempature ≤ 32767
      ∧ -32768 ≤ iridiumWarm.tempature ∧ iridiumWarm.tempature ≤ 32767) ∧
    (diffusionPass 600 400 mixedPairGrid (2, 3)
        = some { sandHot with tempature :=
            (sandHot.tempature
              - sandHot.tempature.tdiv
                  (thermal_conductivity sandHot.ptype + thermal_conductivity waterCold.ptype)
              + waterCold.tempature.tdiv
                  (thermal_conductivity sandHot.ptype
                    + thermal_conductivity waterCold.ptype)) }
    ∧ diffusionPass 600 400 mixedPairGrid (2, 4)
        = some { waterCold with tempature :=
            (waterCold.tempature
              + sandHot.tempature.tdiv
                  (thermal_conductivity sandHot.ptype + thermal_conductivity waterCold.ptype)
              - waterCold.tempature.tdiv
                  (thermal_conductivity sandHot.ptype
                    + thermal_conductivity waterCold.ptype)) }
    ∧ diffusionPass 600 400 horizPairGrid (5, 7)
        = some { acidCold with tempature :=
            (acidCold.tempature
              - acidCold.tempature.tdiv
                  (thermal_conductivity acidCold.ptype
                    + thermal_conductivity iridiumWarm.ptype)
              + iridiumWarm.tempature.tdiv
                  (thermal_conductivity acidCold.ptype
                    + thermal_conductivity iridiumWarm.ptype)) }
    ∧ diffusionPass 600 400 horizPairGrid (5 + 1, 7)
        = some { iridiumWarm with tempature :=
            (iridiumWarm.tempature
              + acidCold.tempature.tdiv
                  (thermal_conductivity acidCold.ptype
                    + thermal_conductivity iridiumWarm.ptype)
              - iridiumWarm.tempature.tdiv
                  (thermal_conductivity acidCold.ptype
                    + thermal_conductivity iridiumWarm.ptype)) }) :=
  ⟨⟨by decide, by decide, by decide, by decide,
    fun q h1 h2 => by unfold mixedPairGrid; rw [if_neg h1, if_neg h2],
    by decide, by decide, by decide, by decide,
    fun q h1 h2 => by unfold horizPairGrid; rw [if_neg h1, if_neg h2],
    by decide, by decide, by decide, by decide, by decide, by decide,
    by decide, by decide⟩,
    c1_isolated_pair_diffusion 600 400 2 3 5 7 sandHot waterCold acidCold iridiumWarm
      mixedPairGrid horizPairGrid
      (by decide) (by decide) (by decide) (by decide)
      (fun q h1 h2 => by unfold mixedPairGrid; rw [if_neg h1, if_neg h2])
      (by decide) (by decide) (by decide) (by decide)
      (fun q h1 h2 => by unfold horizPairGrid; rw [if_neg h1, if_neg h2])
      (by decide) (by decide) (by decide) (by decide)
      (by decide) (by decide) (by decide) (by decide)⟩

end SandSim
